import Mathlib

/-!
# Shore Roleplay radio signaling server — verification of the spec's claims

A shallow embedding of `src/radio-server.js` (the richer radio-server
variant, the one the spec treats as authoritative).  JavaScript values are
embedded as follows:

* a field that may be `undefined`/`null` is an `Option`;
* JS string truthiness (`""` is falsy, every other string truthy) is made
  explicit where the source relies on it (`jsTruthyStr`);
* `Set` objects are lists kept in insertion order without duplicates
  (`listInsert` / `List.filter`), `Map` objects and plain objects used as
  maps are functions into `Option`;
* `Date.now()` timestamps are `Nat` milliseconds, audio chunks are opaque
  `Nat` payloads;
* socket.io rooms are modelled as a per-socket list of joined room names,
  and an `io.to(room).emit(...)` is an emission whose target is that room.
-/

namespace Radio

/-- Socket identifiers (socket.io assigns a fresh opaque id per connection). -/
abbrev SocketId := Nat

/-- Channel identifiers are strings, as delivered by the backend. -/
abbrev ChannelId := String

/-- A user profile as resolved by `validateUser` from the backend.
`isStaff` is the truthiness of the JS `isStaff` field; `roles` is `some`
exactly when the JS `roles` field is an array; `department` is `some s`
when the JS field holds the string `s` (possibly empty) and `none` when it
is `null`/`undefined`. -/
structure User where
  id : Nat
  username : String
  department : Option String
  role : Option String
  roles : Option (List String)
  isStaff : Bool
deriving Repr, DecidableEq

/-- A channel definition from the backend directory
(`{ id, name, type, department, allowedRoles, ... }`).  `type` is a raw
string: the server switches on it and fails closed on anything unknown. -/
structure Channel where
  id : ChannelId
  name : String
  type : String
  department : Option String
  allowedRoles : Option (List String)
deriving Repr, DecidableEq

/-- JS truthiness of an optional string: `undefined`/`null` and the empty
string are falsy, every other string is truthy. -/
def jsTruthyStr : Option String → Bool
  | none => false
  | some s => !(s == "")

/-- The `userIsStaff` from the source: the `isStaff` flag, or membership of
`"staff"` in the `roles` array when that array exists. -/
def userIsStaff (user : User) : Bool :=
  if user.isStaff then true
  else
    match user.roles with
    | some rs => rs.contains "staff"
    | none => false

/-- The user's role array as used by the `custom` branch of the source:
`Array.isArray(user.roles) ? user.roles : []`. -/
def userRolesList (user : User) : List String :=
  user.roles.getD []

/-- The `department`-branch result of the evaluator: the truthiness of the
JS value `user.department && user.department === channel.department`. -/
def deptAccessExpr (user : User) (channel : Channel) : Bool :=
  jsTruthyStr user.department && user.department == channel.department

/-- The `custom`-branch department restriction guard of the evaluator:
`channel.department && user.department !== channel.department`. -/
def customDeptGuard (user : User) (channel : Channel) : Bool :=
  jsTruthyStr channel.department && !(user.department == channel.department)

/-- The `custom`-branch role restriction of the evaluator: when a
non-empty `allowedRoles` array is declared, some declared role must occur
in the user's role array. -/
def customRoleCheck (user : User) (channel : Channel) : Bool :=
  match channel.allowedRoles with
  | some ar =>
      if ar.length ≠ 0 then ar.any (fun r => (userRolesList user).contains r)
      else true
  | none => true

/-- The `userCanJoinChannel` from the source: the access evaluator, switching
on the channel type and failing closed on unknown types. -/
def userCanJoinChannel (user : User) (channel : Channel) : Bool :=
  let staff := userIsStaff user
  if channel.type == "public" then
    true
  else if channel.type == "department" then
    if staff then true
    else deptAccessExpr user channel
  else if channel.type == "staff" then
    staff
  else if channel.type == "custom" then
    if staff then true
    else if customDeptGuard user channel then
      false
    else
      customRoleCheck user channel
  else
    false

/-! ## The §4.3 access table, written from the spec's words

`canAccessSpecTable` renders the table of §4.3 as the claim states it.
Interpretation of the spec's optional fields: the data model calls a
department "optional", and in the JS encoding an absent, `null` or
empty-string department is the absence of a department, so "the user's
department equals the channel's department" requires the user to have a
(non-empty) department, and a channel "declares a department restriction"
when its department field holds a non-empty string. -/

/-- Spec reading of "the user's department equals the channel's
department": the user has a department and the channel's department is
that same one. -/
def specDeptMatches (user : User) (channel : Channel) : Prop :=
  ∃ d, user.department = some d ∧ d ≠ "" ∧ channel.department = some d

/-- Spec reading of "the channel declares a department restriction the
user does not match". -/
def specDeptMismatch (user : User) (channel : Channel) : Prop :=
  ∃ d, channel.department = some d ∧ d ≠ "" ∧ user.department ≠ some d

/-- Spec reading of "the channel declares a non-empty allowed-role list
with no overlap with the user's role set". -/
def specRoleMismatch (user : User) (channel : Channel) : Prop :=
  ∃ rs, channel.allowedRoles = some rs ∧ rs ≠ [] ∧
    ∀ r ∈ rs, r ∉ userRolesList user

/-- The §4.3 permit/deny table, as the claim words it. -/
def canAccessSpecTable (user : User) (channel : Channel) : Prop :=
  (channel.type = "public") ∨
  (channel.type = "department" ∧
    (userIsStaff user = true ∨ specDeptMatches user channel)) ∨
  (channel.type = "staff" ∧ userIsStaff user = true) ∨
  (channel.type = "custom" ∧
    (userIsStaff user = true ∨
      (¬ specDeptMismatch user channel ∧ ¬ specRoleMismatch user channel)))

/-! ## Server state

The mutable state of `radio-server.js`: the channel directory cache
`CHANNELS`, the session registry `clients`, the membership index
`channelMembers`, and, from the socket.io layer, the rooms each socket has
joined (`socket.join` / `socket.leave`; `io.to(room).emit` delivers to
every socket in the room). -/

/-- Rate-limit counters of a session: the PTT-start timestamp window and
the per-second audio chunk counters (a JS object keyed by second). -/
structure Stats where
  pttStarts : List Nat
  chunksPerSecond : List (Nat × Nat)
deriving Repr, DecidableEq

/-- One session registry entry:
`{ user, currentChannel, monitoring, stats }`. -/
structure ClientState where
  user : User
  currentChannel : Option ChannelId
  monitoring : List ChannelId
  stats : Stats
deriving Repr, DecidableEq

/-- The whole in-memory server state. -/
structure ServerState where
  channels : List Channel
  clients : SocketId → Option ClientState
  channelMembers : ChannelId → Option (List SocketId)
  rooms : SocketId → List ChannelId

/-- State at process start: no channels loaded, no sessions, no members,
no rooms. -/
def initState : ServerState where
  channels := []
  clients := fun _ => none
  channelMembers := fun _ => none
  rooms := fun _ => []

/-- Point update of a map modelled as a function into `Option`. -/
def mapSet {α β : Type} [DecidableEq α] (m : α → Option β) (k : α) (v : β) :
    α → Option β :=
  fun x => if x = k then some v else m x

/-- Point deletion from a map modelled as a function into `Option`. -/
def mapDel {α β : Type} [DecidableEq α] (m : α → Option β) (k : α) :
    α → Option β :=
  fun x => if x = k then none else m x

/-- A server state with the registry replaced (used to phrase handler
results compactly). -/
def withClients (s : ServerState) (c : SocketId → Option ClientState) :
    ServerState :=
  { s with clients := c }

/-- A session with its PTT window replaced. -/
def withPttStarts (st : ClientState) (l : List Nat) : ClientState :=
  { st with stats := { st.stats with pttStarts := l } }

/-- A session with its chunk counters replaced. -/
def withChunks (st : ClientState) (l : List (Nat × Nat)) : ClientState :=
  { st with stats := { st.stats with chunksPerSecond := l } }

/-- JS `Set.add`: append if not already present (insertion order kept). -/
def listInsert {α : Type} [DecidableEq α] (x : α) (l : List α) : List α :=
  if x ∈ l then l else l ++ [x]

/-- JS `Set.delete`: drop the element, keeping the order of the rest. -/
def listRemove {α : Type} [DecidableEq α] (x : α) (l : List α) : List α :=
  l.filter (fun y => y ≠ x)

/-- The `socket.join(ch)`. -/
def roomsJoin (r : SocketId → List ChannelId) (sid : SocketId) (ch : ChannelId) :
    SocketId → List ChannelId :=
  fun x => if x = sid then listInsert ch (r x) else r x

/-- The `socket.leave(ch)`. -/
def roomsLeave (r : SocketId → List ChannelId) (sid : SocketId) (ch : ChannelId) :
    SocketId → List ChannelId :=
  fun x => if x = sid then listRemove ch (r x) else r x

/-- socket.io removes a disconnecting socket from all of its rooms before
the `disconnect` handler runs. -/
def roomsClear (r : SocketId → List ChannelId) (sid : SocketId) :
    SocketId → List ChannelId :=
  fun x => if x = sid then [] else r x

/-- The `getChannelById` from the source: lookup in the current directory
snapshot. -/
def getChannelById (channels : List Channel) (id : ChannelId) : Option Channel :=
  channels.find? (fun c => c.id == id)

/-- The `ensureChannelSet` from the source: get the member set for a channel
id, inserting an empty set into the index first when the id is unknown. -/
def ensureChannelSet (m : ChannelId → Option (List SocketId)) (id : ChannelId) :
    ((ChannelId → Option (List SocketId)) × List SocketId) :=
  match m id with
  | some set => (m, set)
  | none => (mapSet m id [], [])

/-! ## Emitted events

Every `socket.emit` / `io.to(room).emit` of the source is recorded as an
`Emit`.  Where the source payload embeds `getUserDisplay(user)` of a
session, the payload here carries that session's socket id: the display
object is a pure function of the registry entry under that id. -/

/-- Delivery target of an emission. -/
inductive Target where
  | toSocket (sid : SocketId)
  | toRoom (ch : ChannelId)
deriving Repr, DecidableEq

/-- Payloads of the client-facing events of the source. -/
inductive Payload where
  | authFailed
  | authSuccess
  | channelsList
  | errorMsg (msg : String)
  | denied (msg : String)
  | joined (id : ChannelId) (name : String)
  | channelRoster (channelId : ChannelId) (roster : List SocketId)
  | monitoring (channels : List ChannelId)
  | pttState (sender : SocketId) (state : String) (channelId : ChannelId)
  | signalOut (sender : SocketId) (channelId : ChannelId) (chunk : Nat)
deriving Repr, DecidableEq

/-- One emission: a payload and where it is sent. -/
structure Emit where
  target : Target
  payload : Payload
deriving Repr, DecidableEq

/-- Whether an emission is delivered to socket `sid` in state `s`: direct
emissions reach their socket, room emissions reach every socket in the
room. -/
def emitDeliveredTo (s : ServerState) (e : Emit) (sid : SocketId) : Bool :=
  match e.target with
  | Target.toSocket t => t == sid
  | Target.toRoom ch => ch ∈ s.rooms sid

/-- The `broadcastRoster` from the source: if the channel has a member set,
emit to the channel's room the roster of those members that still have a
registry entry. -/
def broadcastRoster (s : ServerState) (channelId : ChannelId) : List Emit :=
  match s.channelMembers channelId with
  | none => []
  | some members =>
      [⟨Target.toRoom channelId,
        Payload.channelRoster channelId
          (members.filter (fun sid => (s.clients sid).isSome))⟩]

/-! ## Configuration defaults -/

/-- The `MAX_PTT_STARTS_PER_10S` default. -/
def MAX_PTT_STARTS_PER_10S : Nat := 10

/-- The `MAX_CHUNKS_PER_SECOND` default. -/
def MAX_CHUNKS_PER_SECOND : Nat := 30

/-! ## Handlers -/

/-- The `connection` handler after `validateUser` resolved (the argument
is its result).  Socket ids are fresh per connection, so a connect for an
id that is still registered cannot occur and is a no-op here.  On failure
the socket is told `auth_failed` and dropped; on success the session is
registered with no channel, no monitors and zeroed counters, and is sent
`auth_success` and the channel list. -/
def handleConnect (s : ServerState) (sid : SocketId) (result : Option User) :
    ServerState × List Emit :=
  if (s.clients sid).isSome then (s, [])
  else
    match result with
    | none => (s, [⟨Target.toSocket sid, Payload.authFailed⟩])
    | some user =>
        let st : ClientState :=
          { user := user, currentChannel := none, monitoring := [],
            stats := { pttStarts := [], chunksPerSecond := [] } }
        ({ s with clients := mapSet s.clients sid st },
         [⟨Target.toSocket sid, Payload.authSuccess⟩,
          ⟨Target.toSocket sid, Payload.channelsList⟩])

/-- The `joinChannel` handler.  The leave-previous-channel block is guarded
by `if (state.currentChannel)`, a JS truthiness test: it is skipped both
when the field is `null` and when it holds the empty string, so a recorded
empty-string primary is never left. -/
def handleJoin (s : ServerState) (sid : SocketId) (channelId : ChannelId) :
    ServerState × List Emit :=
  match s.clients sid with
  | none => (s, [])
  | some st =>
    match getChannelById s.channels channelId with
    | none => (s, [⟨Target.toSocket sid, Payload.errorMsg "Channel not found."⟩])
    | some channel =>
      if !(userCanJoinChannel st.user channel) then
        (s, [⟨Target.toSocket sid,
          Payload.denied ("You are not allowed to join " ++ channel.name ++ ".")⟩])
      else
        let leave :=
          match st.currentChannel with
          | some prev =>
              if prev = "" then (s, ([] : List Emit))
              else
                let em := ensureChannelSet s.channelMembers prev
                let s1 : ServerState :=
                  { s with channelMembers := mapSet em.1 prev (listRemove sid em.2),
                           rooms := roomsLeave s.rooms sid prev }
                (s1, broadcastRoster s1 prev)
          | none => (s, ([] : List Emit))
        let s1 := leave.1
        let st2 := { st with currentChannel := some channelId }
        let em := ensureChannelSet s1.channelMembers channelId
        let s2 : ServerState :=
          { s1 with clients := mapSet s1.clients sid st2,
                    channelMembers := mapSet em.1 channelId (listInsert sid em.2),
                    rooms := roomsJoin s1.rooms sid channelId }
        (s2, leave.2 ++ ⟨Target.toSocket sid, Payload.joined channelId channel.name⟩ ::
          broadcastRoster s2 channelId)

/-- The `monitorChannel` handler. -/
def handleMonitor (s : ServerState) (sid : SocketId) (channelId : ChannelId) :
    ServerState × List Emit :=
  match s.clients sid with
  | none => (s, [])
  | some st =>
    if !(userIsStaff st.user) then
      (s, [⟨Target.toSocket sid, Payload.denied "Only staff can monitor channels."⟩])
    else
      match getChannelById s.channels channelId with
      | none => (s, [])
      | some _ =>
        if channelId ∈ st.monitoring then (s, [])
        else
          let st2 := { st with monitoring := st.monitoring ++ [channelId] }
          ({ s with clients := mapSet s.clients sid st2,
                    rooms := roomsJoin s.rooms sid channelId },
           [⟨Target.toSocket sid, Payload.monitoring st2.monitoring⟩])

/-- The `unmonitorChannel` handler. -/
def handleUnmonitor (s : ServerState) (sid : SocketId) (channelId : ChannelId) :
    ServerState × List Emit :=
  match s.clients sid with
  | none => (s, [])
  | some st =>
    if !(userIsStaff st.user) then (s, [])
    else if channelId ∉ st.monitoring then (s, [])
    else
      let st2 := { st with monitoring := listRemove channelId st.monitoring }
      let rooms2 :=
        if st.currentChannel ≠ some channelId then roomsLeave s.rooms sid channelId
        else s.rooms
      ({ s with clients := mapSet s.clients sid st2, rooms := rooms2 },
       [⟨Target.toSocket sid, Payload.monitoring st2.monitoring⟩])

/-- The `ptt_start` handler, with `now = Date.now()`.  The guard
`if (!state || !state.currentChannel) return` tests JS truthiness, so a
session whose `currentChannel` is `null` or the empty string is ignored.
The window filter result is stored back before the ceiling check, exactly
as the source assigns the filtered array before testing its length. -/
def handlePttStart (s : ServerState) (sid : SocketId) (now : Nat) :
    ServerState × List Emit :=
  match s.clients sid with
  | none => (s, [])
  | some st =>
    match st.currentChannel with
    | none => (s, [])
    | some ch =>
      if ch = "" then (s, [])
      else
      let kept := st.stats.pttStarts.filter (fun t => now - t < 10000)
      if kept.length ≥ MAX_PTT_STARTS_PER_10S then
        let st2 := { st with stats := { st.stats with pttStarts := kept } }
        ({ s with clients := mapSet s.clients sid st2 },
         [⟨Target.toSocket sid,
           Payload.denied "You are pressing PTT too frequently. Slow down."⟩])
      else
        let st2 := { st with stats := { st.stats with pttStarts := kept ++ [now] } }
        ({ s with clients := mapSet s.clients sid st2 },
         [⟨Target.toRoom ch, Payload.pttState sid "start" ch⟩])

/-- The `ptt_stop` handler: no rate limiting, no state change; the same
truthiness guard as `ptt_start` (a `null` or empty-string primary is
ignored), otherwise an unconditional broadcast. -/
def handlePttStop (s : ServerState) (sid : SocketId) :
    ServerState × List Emit :=
  match s.clients sid with
  | none => (s, [])
  | some st =>
    match st.currentChannel with
    | none => (s, [])
    | some ch =>
        if ch = "" then (s, [])
        else (s, [⟨Target.toRoom ch, Payload.pttState sid "stop" ch⟩])

/-- Bump the per-second counter bucket for second `k`
(`cps[nowSec] = (cps[nowSec] || 0) + 1`). -/
def bumpBucket (l : List (Nat × Nat)) (k : Nat) : List (Nat × Nat) :=
  match l with
  | [] => [(k, 1)]
  | p :: rest => if p.1 = k then (k, p.2 + 1) :: rest else p :: bumpBucket rest k

/-- Counter bucket lookup. -/
def bucketCount (l : List (Nat × Nat)) (k : Nat) : Nat :=
  match l.find? (fun p => p.1 == k) with
  | some p => p.2
  | none => 0

/-- The `signal` (audio chunk) handler, with `now = Date.now()`: the same
truthiness guard as `ptt_start` (a `null` or empty-string primary is
ignored, nothing bumped or relayed), then bump the bucket of the current
second, prune buckets older than five seconds, drop silently above the
ceiling, otherwise relay to the sender's primary channel room. -/
def handleSignal (s : ServerState) (sid : SocketId) (now : Nat) (chunk : Nat) :
    ServerState × List Emit :=
  match s.clients sid with
  | none => (s, [])
  | some st =>
    match st.currentChannel with
    | none => (s, [])
    | some ch =>
      if ch = "" then (s, [])
      else
      let nowSec := now / 1000
      let pruned := (bumpBucket st.stats.chunksPerSecond nowSec).filter
        (fun p => !(p.1 < nowSec - 5))
      let st2 := { st with stats := { st.stats with chunksPerSecond := pruned } }
      let s2 : ServerState := { s with clients := mapSet s.clients sid st2 }
      if bucketCount pruned nowSec > MAX_CHUNKS_PER_SECOND then (s2, [])
      else (s2, [⟨Target.toRoom ch, Payload.signalOut sid ch chunk⟩])

/-- The `getChannels` handler.  The source registers the per-socket
handlers only after a successful authentication has stored the session in
the registry, so only a registered socket can have this handler run. -/
def handleGetChannels (s : ServerState) (sid : SocketId) :
    ServerState × List Emit :=
  match s.clients sid with
  | none => (s, [])
  | some _ => (s, [⟨Target.toSocket sid, Payload.channelsList⟩])

/-- The `disconnect` handler.  socket.io has already removed the socket
from every room when the handler body runs.  The member-set removal and
final roster are guarded by `if (state.currentChannel)`, a JS truthiness
test, so they are skipped both for a `null` and for an empty-string
primary; `clients.delete` runs in either case. -/
def handleDisconnect (s : ServerState) (sid : SocketId) :
    ServerState × List Emit :=
  let s0 : ServerState := { s with rooms := roomsClear s.rooms sid }
  match s0.clients sid with
  | none => (s0, [])
  | some st =>
    match st.currentChannel with
    | some ch =>
        if ch = "" then ({ s0 with clients := mapDel s0.clients sid }, [])
        else
          let em := ensureChannelSet s0.channelMembers ch
          let s1 : ServerState :=
            { s0 with channelMembers := mapSet em.1 ch (listRemove sid em.2) }
          ({ s1 with clients := mapDel s1.clients sid }, broadcastRoster s1 ch)
    | none => ({ s0 with clients := mapDel s0.clients sid }, [])

/-- Result of one `GET /radio/channels` fetch: a successful response whose
body is an array (`some`) or not an array (`none`), or a thrown error. -/
inductive FetchResult where
  | success (body : Option (List Channel))
  | failure
deriving Repr, DecidableEq

/-- The `loadChannelsFromBackend` from the source: an array body replaces the
cache, a non-array body clears it, a thrown error only logs and leaves the
previous snapshot in place. -/
def loadChannelsFromBackend (channels : List Channel) (r : FetchResult) :
    List Channel :=
  match r with
  | FetchResult.success (some arr) => arr
  | FetchResult.success none => []
  | FetchResult.failure => channels

/-! ## The event step relation -/

/-- Every inbound occurrence the server reacts to. -/
inductive Event where
  | connect (sid : SocketId) (result : Option User)
  | join (sid : SocketId) (channelId : ChannelId)
  | monitor (sid : SocketId) (channelId : ChannelId)
  | unmonitor (sid : SocketId) (channelId : ChannelId)
  | pttStart (sid : SocketId) (now : Nat)
  | pttStop (sid : SocketId)
  | signal (sid : SocketId) (now : Nat) (chunk : Nat)
  | getChannels (sid : SocketId)
  | disconnect (sid : SocketId)
  | refresh (r : FetchResult)
deriving Repr, DecidableEq

/-- The socket a given event arrives on, if any. -/
def eventActor : Event → Option SocketId
  | Event.connect sid _ => some sid
  | Event.join sid _ => some sid
  | Event.monitor sid _ => some sid
  | Event.unmonitor sid _ => some sid
  | Event.pttStart sid _ => some sid
  | Event.pttStop sid => some sid
  | Event.signal sid _ _ => some sid
  | Event.getChannels sid => some sid
  | Event.disconnect sid => some sid
  | Event.refresh _ => none

/-- One event-loop step: handlers run to completion one at a time. -/
def step (s : ServerState) : Event → ServerState × List Emit
  | Event.connect sid result => handleConnect s sid result
  | Event.join sid channelId => handleJoin s sid channelId
  | Event.monitor sid channelId => handleMonitor s sid channelId
  | Event.unmonitor sid channelId => handleUnmonitor s sid channelId
  | Event.pttStart sid now => handlePttStart s sid now
  | Event.pttStop sid => handlePttStop s sid
  | Event.signal sid now chunk => handleSignal s sid now chunk
  | Event.getChannels sid => handleGetChannels s sid
  | Event.disconnect sid => handleDisconnect s sid
  | Event.refresh r => ({ s with channels := loadChannelsFromBackend s.channels r }, [])

/-- Run a list of events from a state, collecting all emissions. -/
def runEvents (s : ServerState) (es : List Event) : ServerState × List Emit :=
  match es with
  | [] => (s, [])
  | e :: rest =>
      let r := step s e
      let r2 := runEvents r.1 rest
      (r2.1, r.2 ++ r2.2)

/-- States reachable from process start. -/
inductive Reachable : ServerState → Prop where
  | init : Reachable initState
  | next {s : ServerState} (e : Event) : Reachable s → Reachable (step s e).1

/-- Membership of a socket in a channel's index entry, as a Bool. -/
def memberOfMap (m : ChannelId → Option (List SocketId)) (ch : ChannelId)
    (sid : SocketId) : Bool :=
  match m ch with
  | some members => sid ∈ members
  | none => false

def memberOf (s : ServerState) (ch : ChannelId) (sid : SocketId) : Bool :=
  memberOfMap s.channelMembers ch sid

/-- The primary channel recorded for a socket, `none` when the socket has
no registry entry. -/
def clientPrimary (s : ServerState) (sid : SocketId) : Option ChannelId :=
  match s.clients sid with
  | some st => st.currentChannel
  | none => none

/-- The monitoring set recorded for a socket, empty when the socket has no
registry entry. -/
def clientMonitoring (s : ServerState) (sid : SocketId) : List ChannelId :=
  match s.clients sid with
  | some st => st.monitoring
  | none => []

/-- Whether a `monitorChannel` request is granted: the handler adds the
channel and answers with the updated monitoring list exactly when it
grants. -/
def monitorGranted (s : ServerState) (sid : SocketId) (channelId : ChannelId) : Bool :=
  (handleMonitor s sid channelId).2.any
    (fun e => match e.payload with
      | Payload.monitoring _ => true
      | _ => false)

/-- An emission references session `sid` when its payload was derived from
that session: it appears in a roster, or is the transmitting/sending
identity of a PTT state or relayed chunk. -/
def emitMentions (e : Emit) (sid : SocketId) : Bool :=
  match e.payload with
  | Payload.channelRoster _ roster => sid ∈ roster
  | Payload.pttState sender _ _ => sender == sid
  | Payload.signalOut sender _ _ => sender == sid
  | _ => false

/-- The global state invariant.  The empty-string channel id is falsy to
every `if (state.currentChannel)` guard of the source, so the leave logic
never cleans up rooms or index entries under that id: the invariant
therefore constrains only non-empty ids.  (1) For every non-empty id, a
channel's index entry holds exactly the sessions whose primary channel it
is; (2) a socket is only in a non-empty-id room it has primary or
monitoring claim to; (3) a session is always in its primary channel's
room; (4) an unregistered socket is in no room at all. -/
def Inv (s : ServerState) : Prop :=
  (∀ ch sid, ch ≠ "" →
    (memberOf s ch sid = true ↔ clientPrimary s sid = some ch)) ∧
  (∀ sid ch, ch ∈ s.rooms sid → ch ≠ "" →
    clientPrimary s sid = some ch ∨ ch ∈ clientMonitoring s sid) ∧
  (∀ sid ch, clientPrimary s sid = some ch → ch ∈ s.rooms sid) ∧
  (∀ sid, s.clients sid = none → s.rooms sid = [])

/-! ## Concrete fixtures

Small concrete users, channels and runs used to instantiate the theorems
and to exhibit divergences between spec and code. -/

/-- An ordinary non-staff user with a department. -/
def civUser : User :=
  { id := 1, username := "ada", department := some "fire", role := some "CIV",
    roles := some [], isStaff := false }

/-- A staff user (staff via the `roles` array). -/
def staffUser : User :=
  { id := 2, username := "sam", department := none, role := some "ADMIN",
    roles := some ["staff"], isStaff := false }

/-- A plain public channel. -/
def pubChannel : Channel :=
  { id := "pub", name := "Public", type := "public", department := none,
    allowedRoles := none }

/-- A second public channel, used to exercise switching primaries. -/
def pub2Channel : Channel :=
  { id := "pub2", name := "Public 2", type := "public", department := none,
    allowedRoles := none }

/-- A channel of a type unknown to the evaluator. -/
def mysteryChannel : Channel :=
  { id := "mys", name := "Mystery", type := "encrypted", department := none,
    allowedRoles := none }

/-- A state with the public and mystery channels loaded, the staff user
connected on socket 2 and the civilian connected on socket 1 with the
public channel as primary. -/
def baseState : ServerState :=
  (runEvents initState
    [Event.refresh (FetchResult.success
       (some [pubChannel, pub2Channel, mysteryChannel])),
     Event.connect 2 (some staffUser),
     Event.connect 1 (some civUser),
     Event.join 1 "pub"]).1

/-- The ten PTT starts at seconds 0..9 used by the rate-limit scenario. -/
def tenStarts : List Event :=
  (List.range 10).map (fun i => Event.pttStart 1 (1000 * i))

/-- The base state after the staff user additionally starts monitoring the
mystery channel. -/
def monitorState : ServerState :=
  (runEvents baseState [Event.monitor 2 "mys"]).1

/-- The base state after the staff user joins the public channel as
primary and then also monitors it. -/
def staffMonState : ServerState :=
  (runEvents baseState [Event.join 2 "pub", Event.monitor 2 "pub"]).1

/-- A public channel whose backend-assigned id is the empty string: plain
directory data, but an id every `if (state.currentChannel)` guard of the
source reads as falsy. -/
def emptyIdChannel : Channel :=
  { id := "", name := "Blank", type := "public", department := none,
    allowedRoles := none }

/-- The base state after a refresh that adds the empty-id channel and the
civilian joins it as primary (leaving the public channel). -/
def emptyPrimState : ServerState :=
  (runEvents baseState
    [Event.refresh (FetchResult.success
       (some [emptyIdChannel, pubChannel])),
     Event.join 1 ""]).1

/-- The state after the civilian then switches primary from the empty-id
channel to the public channel: the falsy leave guard skips the removal, so
the session stays in the empty id's member set and room. -/
def ghostState : ServerState :=
  (runEvents emptyPrimState [Event.join 1 "pub"]).1

/-- The `department`-branch expression of the evaluator is the spec's
"user's department equals the channel's department". -/
theorem deptExpr_iff (user : User) (channel : Channel) :
    deptAccessExpr user channel = true ↔ specDeptMatches user channel := by
  unfold deptAccessExpr
  rcases hud : user.department with - | d
  · simp [jsTruthyStr, specDeptMatches, hud]
  · by_cases hd : d = ""
    · subst hd
      simp [jsTruthyStr, specDeptMatches, hud]
    · simp only [jsTruthyStr, specDeptMatches, hud, Bool.and_eq_true,
        Bool.not_eq_true', beq_eq_false_iff_ne, beq_iff_eq, ne_eq,
        Option.some.injEq]
      constructor
      · rintro ⟨-, heq⟩
        exact ⟨d, rfl, hd, heq.symm⟩
      · rintro ⟨d', hdd, -, hcd⟩
        refine ⟨fun h => hd h, ?_⟩
        rw [hcd, ← hdd]

/-- The `custom`-branch department guard of the evaluator is the spec's
"declares a department restriction the user does not match". -/
theorem deptGuard_iff (user : User) (channel : Channel) :
    customDeptGuard user channel = true ↔ specDeptMismatch user channel := by
  unfold customDeptGuard
  rcases hcd : channel.department with - | d
  · simp [jsTruthyStr, specDeptMismatch, hcd]
  · by_cases hd : d = ""
    · subst hd
      simp [jsTruthyStr, specDeptMismatch, hcd]
    · simp [jsTruthyStr, specDeptMismatch, hcd, hd]

/-- The `custom`-branch role check of the evaluator is the negation of the
spec's "declares a non-empty allowed-role list with no overlap". -/
theorem roleCheck_iff (user : User) (channel : Channel) :
    customRoleCheck user channel = true ↔ ¬ specRoleMismatch user channel := by
  unfold customRoleCheck
  rcases har : channel.allowedRoles with - | ar
  · simp [specRoleMismatch, har]
  · rcases ar with - | ⟨r0, rest⟩
    · simp [specRoleMismatch, har]
    · simp only [specRoleMismatch, har, Option.some.injEq, ne_eq,
        List.length_cons, Nat.succ_ne_zero, not_false_iff, if_pos,
        List.any_eq_true]
      constructor
      · rintro ⟨r, hr, hc⟩ ⟨rs, hrs, -, hall⟩
        subst hrs
        exact hall r hr (by simpa using hc)
      · intro h
        by_contra hno
        push_neg at hno
        refine h ⟨r0 :: rest, rfl, by simp, fun r hr hmem => ?_⟩
        have := hno r hr
        simp [hmem] at this

end Radio

/-- C1: the access evaluator decides permit/deny exactly as the §4.3 table
states it, for every user and channel: public always permits; department
permits staff or a matching user department; staff permits only staff;
custom permits staff, else denies a declared department restriction the
user misses, else denies a declared non-empty allowed-role list with no
overlap, else permits; any other type is denied (fail closed). -/
theorem C1_canAccess_matches_table (user : Radio.User) (channel : Radio.Channel) :
    Radio.userCanJoinChannel user channel = true ↔
      Radio.canAccessSpecTable user channel := by
  unfold Radio.userCanJoinChannel Radio.canAccessSpecTable
  by_cases hpub : channel.type = "public"
  · simp [hpub]
  · by_cases hdep : channel.type = "department"
    · by_cases hstaff : Radio.userIsStaff user = true
      · simp [hdep, hpub, hstaff]
      · by_cases hex : Radio.deptAccessExpr user channel = true
        · simp [hdep, hpub, hstaff, hex,
            (Radio.deptExpr_iff user channel).mp hex]
        · have hnm : ¬ Radio.specDeptMatches user channel := fun h =>
            hex ((Radio.deptExpr_iff user channel).mpr h)
          simp [hdep, hpub, hstaff, hex, hnm]
    · by_cases hstc : channel.type = "staff"
      · simp [hstc, hpub, hdep]
      · by_cases hcus : channel.type = "custom"
        · by_cases hstaff : Radio.userIsStaff user = true
          · simp [hcus, hpub, hdep, hstc, hstaff]
          · by_cases hguard : Radio.customDeptGuard user channel = true
            · have hmis := (Radio.deptGuard_iff user channel).mp hguard
              simp [hcus, hpub, hdep, hstc, hstaff, hguard, hmis]
            · have hnomis : ¬ Radio.specDeptMismatch user channel := fun h =>
                hguard ((Radio.deptGuard_iff user channel).mpr h)
              by_cases hrole : Radio.customRoleCheck user channel = true
              · have hok := (Radio.roleCheck_iff user channel).mp hrole
                simp [hcus, hpub, hdep, hstc, hstaff, hguard, hrole, hnomis, hok]
              · have hmis : Radio.specRoleMismatch user channel := by
                  by_contra hno
                  exact hrole ((Radio.roleCheck_iff user channel).mpr hno)
                simp [hcus, hpub, hdep, hstc, hstaff, hguard, hrole, hmis]
        · simp [hpub, hdep, hstc, hcus]

/-- C7: a failed directory refresh changes nothing: the cached channel
list — and with it every lookup, every session, every member set and
every room — is exactly as before, and nothing is emitted. -/
theorem C7_refresh_failure_keeps_cache (s : Radio.ServerState) :
    Radio.loadChannelsFromBackend s.channels Radio.FetchResult.failure =
      s.channels ∧
    Radio.step s (Radio.Event.refresh Radio.FetchResult.failure) = (s, []) :=
  ⟨rfl, rfl⟩

/-- C2 fails on the code: monitoring does not reuse the join evaluator.
In the concrete base state, staff socket 2 is granted monitoring of the
unknown-typed mystery channel although the evaluator would deny a join of
it even to staff. -/
theorem C2_counterexample :
    ¬ (Radio.monitorGranted Radio.baseState 2 "mys" = true ↔
        (Radio.userCanJoinChannel Radio.staffUser Radio.mysteryChannel = true ∧
          Radio.userIsStaff Radio.staffUser = true)) := by
  decide

/-- C2 amended: a monitorChannel request is granted exactly when the
requester is staff, the channel id is in the current directory snapshot,
and the channel is not already being monitored; the join access evaluator
is not consulted. -/
theorem C2_amended_monitor_grant (s : Radio.ServerState) (sid : Radio.SocketId)
    (st : Radio.ClientState) (channelId : Radio.ChannelId)
    (h : s.clients sid = some st) :
    Radio.monitorGranted s sid channelId = true ↔
      (Radio.userIsStaff st.user = true ∧
        (Radio.getChannelById s.channels channelId).isSome = true ∧
        channelId ∉ st.monitoring) := by
  unfold Radio.monitorGranted Radio.handleMonitor
  rw [h]
  by_cases hstaff : Radio.userIsStaff st.user = true
  · cases hch : Radio.getChannelById s.channels channelId with
    | none => simp [hstaff, hch]
    | some c =>
        by_cases hmon : channelId ∈ st.monitoring
        · simp [hstaff, hch, hmon]
        · simp [hstaff, hch, hmon]
  · simp [hstaff]

/-- Witness for C2 amended: the grant criterion evaluated in the base
state for staff socket 2 monitoring the mystery channel. -/
theorem C2_amended_monitor_grant_witness :
    Radio.monitorGranted Radio.baseState 2 "mys" = true ↔
      (Radio.userIsStaff Radio.staffUser = true ∧
        (Radio.getChannelById Radio.baseState.channels "mys").isSome = true ∧
        "mys" ∉ ([] : List Radio.ChannelId)) :=
  C2_amended_monitor_grant Radio.baseState 2
    { user := Radio.staffUser, currentChannel := none, monitoring := [],
      stats := { pttStarts := [], chunksPerSecond := [] } } "mys" rfl

/-- C9 fails on the code for monitorChannel: a staff request naming an id
absent from the snapshot is answered with nothing at all, not with a
"not found" style denial. -/
theorem C9_counterexample :
    (Radio.getChannelById Radio.baseState.channels "ghost").isNone = true ∧
    (Radio.step Radio.baseState (Radio.Event.monitor 2 "ghost")).2 = [] := by
  decide

/-- C9 amended: an unknown channel id never changes any state.  joinChannel
answers with the "Channel not found." error; monitorChannel does not
answer with a not-found message: staff requesters get silence and
non-staff requesters get the staff-only denial emitted before the lookup. -/
theorem C9_amended_unknown_channel (s : Radio.ServerState)
    (sid : Radio.SocketId) (st : Radio.ClientState) (channelId : Radio.ChannelId)
    (h : s.clients sid = some st)
    (hch : Radio.getChannelById s.channels channelId = none) :
    Radio.step s (Radio.Event.join sid channelId) =
      (s, [⟨Radio.Target.toSocket sid, Radio.Payload.errorMsg "Channel not found."⟩]) ∧
    (Radio.step s (Radio.Event.monitor sid channelId)).1 = s ∧
    (Radio.userIsStaff st.user = true →
      (Radio.step s (Radio.Event.monitor sid channelId)).2 = []) ∧
    (Radio.userIsStaff st.user = false →
      (Radio.step s (Radio.Event.monitor sid channelId)).2 =
        [⟨Radio.Target.toSocket sid,
          Radio.Payload.denied "Only staff can monitor channels."⟩]) := by
  refine ⟨?_, ?_, ?_, ?_⟩
  · simp [Radio.step, Radio.handleJoin, h, hch]
  · by_cases hstaff : Radio.userIsStaff st.user = true
    · simp [Radio.step, Radio.handleMonitor, h, hch, hstaff]
    · simp [Radio.step, Radio.handleMonitor, h, hstaff]
  · intro hstaff
    simp [Radio.step, Radio.handleMonitor, h, hch, hstaff]
  · intro hstaff
    simp [Radio.step, Radio.handleMonitor, h, hch, hstaff]

/-- Witness for C9 amended: evaluated in the base state at the absent id
"ghost" for staff socket 2. -/
theorem C9_amended_unknown_channel_witness :
    Radio.step Radio.baseState (Radio.Event.join 2 "ghost") =
      (Radio.baseState,
        [⟨Radio.Target.toSocket 2, Radio.Payload.errorMsg "Channel not found."⟩]) ∧
    (Radio.step Radio.baseState (Radio.Event.monitor 2 "ghost")).1 =
      Radio.baseState ∧
    (Radio.userIsStaff Radio.staffUser = true →
      (Radio.step Radio.baseState (Radio.Event.monitor 2 "ghost")).2 = []) ∧
    (Radio.userIsStaff Radio.staffUser = false →
      (Radio.step Radio.baseState (Radio.Event.monitor 2 "ghost")).2 =
        [⟨Radio.Target.toSocket 2,
          Radio.Payload.denied "Only staff can monitor channels."⟩]) :=
  C9_amended_unknown_channel Radio.baseState 2
    { user := Radio.staffUser, currentChannel := none, monitoring := [],
      stats := { pttStarts := [], chunksPerSecond := [] } } "ghost" rfl rfl

/-- Unfolding lemma for `bucketCount` on a cons cell. -/
theorem bucketCount_cons (p : Nat × Nat) (l : List (Nat × Nat)) (k : Nat) :
    Radio.bucketCount (p :: l) k =
      if p.1 = k then p.2 else Radio.bucketCount l k := by
  unfold Radio.bucketCount
  by_cases h : p.1 = k
  · simp [List.find?, h]
  · have hb : (p.1 == k) = false := by simpa using h
    simp [List.find?, hb, h]

/-- Bumping a bucket increments exactly that bucket's count. -/
theorem bucketCount_bump (l : List (Nat × Nat)) (k : Nat) :
    Radio.bucketCount (Radio.bumpBucket l k) k =
      Radio.bucketCount l k + 1 := by
  induction l with
  | nil => simp [Radio.bumpBucket, bucketCount_cons, Radio.bucketCount]
  | cons p rest ih =>
      by_cases hp : p.1 = k
      · simp [Radio.bumpBucket, hp, bucketCount_cons]
      · simp [Radio.bumpBucket, hp, bucketCount_cons, ih]

/-- Filtering with a predicate that keeps every entry keyed `k` does not
change bucket `k`'s count. -/
theorem bucketCount_filter_key (l : List (Nat × Nat)) (k : Nat)
    (pred : Nat × Nat → Bool) (hk : ∀ v, pred (k, v) = true) :
    Radio.bucketCount (l.filter pred) k = Radio.bucketCount l k := by
  induction l with
  | nil => rfl
  | cons p rest ih =>
      by_cases hp : p.1 = k
      · have hpp : pred p = true := by
          have h2 := hk p.2
          have hpk : (k, p.2) = p := by
            rw [← hp]
          rwa [hpk] at h2
        simp [List.filter_cons, hpp, bucketCount_cons, hp, ih]
      · by_cases hpred : pred p = true
        · simp [List.filter_cons, hpred, bucketCount_cons, hp, ih]
        · simp [List.filter_cons, hpred, bucketCount_cons, hp, ih]

/-- C3: PTT-start is broadcast to the primary channel's room exactly when
strictly fewer than 10 starts fall in the rolling 10-second window, the
over-limit start is answered by a denial to the sender only (the window
filter is still stored), a session with no primary channel — the guard is
JS truthiness, so a `null` or an empty-string `currentChannel` — ignores
ptt_start (and ptt_stop) silently, ptt_stop otherwise broadcasts
unconditionally, and the concrete sliding-window scenario behaves as
stated: ten rapid starts broadcast, the eleventh within 10 s is denied
with no broadcast, and a start after the window slides past the earliest
succeeds. -/
theorem C3_ptt_start_rate_limit :
    (∀ (s : Radio.ServerState) (sid : Radio.SocketId) (st : Radio.ClientState)
        (now : Nat), s.clients sid = some st →
        Radio.jsTruthyStr st.currentChannel = false →
        Radio.step s (Radio.Event.pttStart sid now) = (s, []) ∧
        Radio.step s (Radio.Event.pttStop sid) = (s, [])) ∧
    (∀ (s : Radio.ServerState) (sid : Radio.SocketId) (st : Radio.ClientState)
        (ch : Radio.ChannelId) (now : Nat),
        s.clients sid = some st → st.currentChannel = some ch → ch ≠ "" →
        ((st.stats.pttStarts.filter (fun t => now - t < 10000)).length < 10 →
          Radio.step s (Radio.Event.pttStart sid now) =
            (Radio.withClients s (Radio.mapSet s.clients sid
                (Radio.withPttStarts st
                  (st.stats.pttStarts.filter (fun t => now - t < 10000) ++ [now]))),
             [⟨Radio.Target.toRoom ch, Radio.Payload.pttState sid "start" ch⟩])) ∧
        (¬ (st.stats.pttStarts.filter (fun t => now - t < 10000)).length < 10 →
          Radio.step s (Radio.Event.pttStart sid now) =
            (Radio.withClients s (Radio.mapSet s.clients sid
                (Radio.withPttStarts st
                  (st.stats.pttStarts.filter (fun t => now - t < 10000)))),
             [⟨Radio.Target.toSocket sid,
               Radio.Payload.denied "You are pressing PTT too frequently. Slow down."⟩]))) ∧
    (∀ (s : Radio.ServerState) (sid : Radio.SocketId) (st : Radio.ClientState)
        (ch : Radio.ChannelId), s.clients sid = some st →
        st.currentChannel = some ch → ch ≠ "" →
        Radio.step s (Radio.Event.pttStop sid) =
          (s, [⟨Radio.Target.toRoom ch, Radio.Payload.pttState sid "stop" ch⟩])) ∧
    ((Radio.runEvents Radio.baseState Radio.tenStarts).2 =
       List.replicate 10
         ⟨Radio.Target.toRoom "pub", Radio.Payload.pttState 1 "start" "pub"⟩ ∧
     (Radio.step (Radio.runEvents Radio.baseState Radio.tenStarts).1
        (Radio.Event.pttStart 1 9500)).2 =
       [⟨Radio.Target.toSocket 1,
         Radio.Payload.denied "You are pressing PTT too frequently. Slow down."⟩] ∧
     (Radio.step (Radio.step (Radio.runEvents Radio.baseState Radio.tenStarts).1
          (Radio.Event.pttStart 1 9500)).1
        (Radio.Event.pttStart 1 10001)).2 =
       [⟨Radio.Target.toRoom "pub", Radio.Payload.pttState 1 "start" "pub"⟩]) := by
  refine ⟨?_, ?_, ?_, ?_⟩
  · intro s sid st now h1 h2
    cases hcc : st.currentChannel with
    | none =>
        constructor
        · simp [Radio.step, Radio.handlePttStart, h1, hcc]
        · simp [Radio.step, Radio.handlePttStop, h1, hcc]
    | some ch =>
        rw [hcc] at h2
        simp only [Radio.jsTruthyStr, Bool.not_eq_false', beq_iff_eq] at h2
        constructor
        · simp [Radio.step, Radio.handlePttStart, h1, hcc, h2]
        · simp [Radio.step, Radio.handlePttStop, h1, hcc, h2]
  · intro s sid st ch now h1 h2 hne
    constructor
    · intro hlt
      have hcond :
          ¬ ((st.stats.pttStarts.filter (fun t => now - t < 10000)).length ≥
            Radio.MAX_PTT_STARTS_PER_10S) := by
        unfold Radio.MAX_PTT_STARTS_PER_10S
        omega
      simp [Radio.step, Radio.handlePttStart, Radio.withClients, Radio.withPttStarts, h1, h2, hne, hcond]
    · intro hge
      have hcond :
          (st.stats.pttStarts.filter (fun t => now - t < 10000)).length ≥
            Radio.MAX_PTT_STARTS_PER_10S := by
        unfold Radio.MAX_PTT_STARTS_PER_10S
        omega
      simp [Radio.step, Radio.handlePttStart, Radio.withClients, Radio.withPttStarts, h1, h2, hne, hcond]
  · intro s sid st ch h1 h2 hne
    simp [Radio.step, Radio.handlePttStop, h1, h2, hne]
  · refine ⟨by decide, by decide, by decide⟩

/-- Witness for C3: the rate-limit criterion instantiated in the base
state for the civilian session on the public channel at time 0. -/
theorem C3_ptt_start_rate_limit_witness :
    Radio.step Radio.baseState (Radio.Event.pttStart 1 0) =
      (Radio.withClients Radio.baseState (Radio.mapSet Radio.baseState.clients 1
          (Radio.withPttStarts ⟨Radio.civUser, some "pub", [], ⟨[], []⟩⟩
            (([] : List Nat).filter (fun t => 0 - t < 10000) ++ [0]))),
       [⟨Radio.Target.toRoom "pub", Radio.Payload.pttState 1 "start" "pub"⟩]) := by
  have h := C3_ptt_start_rate_limit.2.1 Radio.baseState 1
    { user := Radio.civUser, currentChannel := some "pub", monitoring := [],
      stats := { pttStarts := [], chunksPerSecond := [] } } "pub" 0 rfl rfl
    (by decide)
  exact h.1 (by decide)

/-- C4: for a session with a primary channel (the guard is JS truthiness,
so the channel id is non-empty), each inbound audio chunk bumps the
counter bucket of the current wall-clock second; a chunk whose bumped
count exceeds 30 is dropped with no emission of any kind, a chunk within
the ceiling is relayed to the primary channel's room (so to monitors
too), buckets older than five seconds are pruned on every arrival, and
the delivery rooms themselves are untouched. -/
theorem C4_audio_chunk_relay (s : Radio.ServerState) (sid : Radio.SocketId)
    (st : Radio.ClientState) (ch : Radio.ChannelId) (now chunk : Nat)
    (h1 : s.clients sid = some st) (h2 : st.currentChannel = some ch)
    (hne : ch ≠ "") :
    Radio.bucketCount
        ((Radio.bumpBucket st.stats.chunksPerSecond (now / 1000)).filter
          (fun p => !(p.1 < now / 1000 - 5))) (now / 1000) =
      Radio.bucketCount st.stats.chunksPerSecond (now / 1000) + 1 ∧
    (Radio.step s (Radio.Event.signal sid now chunk)).1 =
      Radio.withClients s (Radio.mapSet s.clients sid
        (Radio.withChunks st
          ((Radio.bumpBucket st.stats.chunksPerSecond (now / 1000)).filter
            (fun p => !(p.1 < now / 1000 - 5))))) ∧
    (Radio.bucketCount st.stats.chunksPerSecond (now / 1000) + 1 > 30 →
      (Radio.step s (Radio.Event.signal sid now chunk)).2 = []) ∧
    (Radio.bucketCount st.stats.chunksPerSecond (now / 1000) + 1 ≤ 30 →
      (Radio.step s (Radio.Event.signal sid now chunk)).2 =
        [⟨Radio.Target.toRoom ch, Radio.Payload.signalOut sid ch chunk⟩]) ∧
    (∀ p ∈ (Radio.bumpBucket st.stats.chunksPerSecond (now / 1000)).filter
        (fun p => !(p.1 < now / 1000 - 5)), ¬ (p.1 < now / 1000 - 5)) ∧
    (Radio.step s (Radio.Event.signal sid now chunk)).1.rooms = s.rooms := by
  have hkeep : ∀ v : Nat,
      (fun p : Nat × Nat => !(p.1 < now / 1000 - 5)) (now / 1000, v) = true := by
    intro v
    have h5 : ¬ (now / 1000 < now / 1000 - 5) := Nat.not_lt.mpr (Nat.sub_le _ _)
    simp [h5]
  have hcount : Radio.bucketCount
      ((Radio.bumpBucket st.stats.chunksPerSecond (now / 1000)).filter
        (fun p => !(p.1 < now / 1000 - 5))) (now / 1000) =
      Radio.bucketCount st.stats.chunksPerSecond (now / 1000) + 1 := by
    rw [bucketCount_filter_key _ _ _ hkeep]
    exact bucketCount_bump _ _
  refine ⟨hcount, ?_, ?_, ?_, ?_, ?_⟩
  · by_cases hcap : Radio.bucketCount
        ((Radio.bumpBucket st.stats.chunksPerSecond (now / 1000)).filter
          (fun p => !(p.1 < now / 1000 - 5))) (now / 1000) >
        Radio.MAX_CHUNKS_PER_SECOND
    · simp [Radio.step, Radio.handleSignal, Radio.withClients, Radio.withChunks, h1, h2, hne, hcap]
    · simp [Radio.step, Radio.handleSignal, Radio.withClients, Radio.withChunks, h1, h2, hne, hcap]
  · intro hover
    have hcap : Radio.bucketCount
        ((Radio.bumpBucket st.stats.chunksPerSecond (now / 1000)).filter
          (fun p => !(p.1 < now / 1000 - 5))) (now / 1000) >
        Radio.MAX_CHUNKS_PER_SECOND := by
      unfold Radio.MAX_CHUNKS_PER_SECOND
      omega
    simp [Radio.step, Radio.handleSignal, Radio.withClients, Radio.withChunks, h1, h2, hne, hcap]
  · intro hunder
    have hcap : ¬ (Radio.bucketCount
        ((Radio.bumpBucket st.stats.chunksPerSecond (now / 1000)).filter
          (fun p => !(p.1 < now / 1000 - 5))) (now / 1000) >
        Radio.MAX_CHUNKS_PER_SECOND) := by
      unfold Radio.MAX_CHUNKS_PER_SECOND
      omega
    simp [Radio.step, Radio.handleSignal, Radio.withClients, Radio.withChunks, h1, h2, hne, hcap]
  · intro p hp
    have := (List.mem_filter.mp hp).2
    simpa using this
  · by_cases hcap : Radio.bucketCount
        ((Radio.bumpBucket st.stats.chunksPerSecond (now / 1000)).filter
          (fun p => !(p.1 < now / 1000 - 5))) (now / 1000) >
        Radio.MAX_CHUNKS_PER_SECOND
    · simp [Radio.step, Radio.handleSignal, Radio.withClients, Radio.withChunks, h1, h2, hne, hcap]
    · simp [Radio.step, Radio.handleSignal, Radio.withClients, Radio.withChunks, h1, h2, hne, hcap]

/-- Witness for C4: the relay criterion instantiated in the base state for
the civilian session's first chunk at time 0. -/
theorem C4_audio_chunk_relay_witness :
    Radio.bucketCount
        ((Radio.bumpBucket ([] : List (Nat × Nat)) (0 / 1000)).filter
          (fun p => !(p.1 < 0 / 1000 - 5))) (0 / 1000) =
      Radio.bucketCount ([] : List (Nat × Nat)) (0 / 1000) + 1 ∧
    (Radio.step Radio.baseState (Radio.Event.signal 1 0 7)).1 =
      Radio.withClients Radio.baseState (Radio.mapSet Radio.baseState.clients 1
        (Radio.withChunks ⟨Radio.civUser, some "pub", [], ⟨[], []⟩⟩
          ((Radio.bumpBucket ([] : List (Nat × Nat)) (0 / 1000)).filter
            (fun p => !(p.1 < 0 / 1000 - 5))))) ∧
    (Radio.bucketCount ([] : List (Nat × Nat)) (0 / 1000) + 1 > 30 →
      (Radio.step Radio.baseState (Radio.Event.signal 1 0 7)).2 = []) ∧
    (Radio.bucketCount ([] : List (Nat × Nat)) (0 / 1000) + 1 ≤ 30 →
      (Radio.step Radio.baseState (Radio.Event.signal 1 0 7)).2 =
        [⟨Radio.Target.toRoom "pub", Radio.Payload.signalOut 1 "pub" 7⟩]) ∧
    (∀ p ∈ (Radio.bumpBucket ([] : List (Nat × Nat)) (0 / 1000)).filter
        (fun p => !(p.1 < 0 / 1000 - 5)), ¬ (p.1 < 0 / 1000 - 5)) ∧
    (Radio.step Radio.baseState (Radio.Event.signal 1 0 7)).1.rooms =
      Radio.baseState.rooms :=
  C4_audio_chunk_relay Radio.baseState 1
    { user := Radio.civUser, currentChannel := some "pub", monitoring := [],
      stats := { pttStarts := [], chunksPerSecond := [] } } "pub" 0 7 rfl rfl
    (by decide)

/-- The `mapSet` at the written key. -/
theorem mapSet_self {α β : Type} [DecidableEq α] (m : α → Option β) (k : α)
    (v : β) : Radio.mapSet m k v k = some v := by
  simp [Radio.mapSet]

/-- The `mapSet` elsewhere. -/
theorem mapSet_other {α β : Type} [DecidableEq α] (m : α → Option β) (k : α)
    (v : β) (x : α) (h : x ≠ k) : Radio.mapSet m k v x = m x := by
  simp [Radio.mapSet, h]

/-- The `mapDel` at the deleted key. -/
theorem mapDel_self {α β : Type} [DecidableEq α] (m : α → Option β) (k : α) :
    Radio.mapDel m k k = none := by
  simp [Radio.mapDel]

/-- The `mapDel` elsewhere. -/
theorem mapDel_other {α β : Type} [DecidableEq α] (m : α → Option β) (k : α)
    (x : α) (h : x ≠ k) : Radio.mapDel m k x = m x := by
  simp [Radio.mapDel, h]

/-- Membership in a `listInsert` result. -/
theorem mem_listInsert {α : Type} [DecidableEq α] (a x : α) (l : List α) :
    a ∈ Radio.listInsert x l ↔ a = x ∨ a ∈ l := by
  unfold Radio.listInsert
  by_cases h : x ∈ l
  · simp only [h, if_pos]
    constructor
    · exact Or.inr
    · rintro (rfl | ha)
      · exact h
      · exact ha
  · simp [h, or_comm]

/-- Membership in a `listRemove` result. -/
theorem mem_listRemove {α : Type} [DecidableEq α] (a x : α) (l : List α) :
    a ∈ Radio.listRemove x l ↔ a ∈ l ∧ a ≠ x := by
  simp [Radio.listRemove, List.mem_filter]

/-- The `memberOfMap` through a `mapSet`. -/
theorem memberOfMap_mapSet (m : Radio.ChannelId → Option (List Radio.SocketId))
    (k : Radio.ChannelId) (v : List Radio.SocketId) (ch : Radio.ChannelId)
    (sid : Radio.SocketId) :
    Radio.memberOfMap (Radio.mapSet m k v) ch sid =
      if ch = k then (sid ∈ v : Bool) else Radio.memberOfMap m ch sid := by
  by_cases h : ch = k
  · subst h
    simp [Radio.memberOfMap, mapSet_self]
  · simp [Radio.memberOfMap, mapSet_other m k v ch h, h]

/-- The `ensureChannelSet` leaves observable membership unchanged. -/
theorem memberOfMap_ensure (m : Radio.ChannelId → Option (List Radio.SocketId))
    (id ch : Radio.ChannelId) (sid : Radio.SocketId) :
    Radio.memberOfMap (Radio.ensureChannelSet m id).1 ch sid =
      Radio.memberOfMap m ch sid := by
  unfold Radio.ensureChannelSet
  cases hm : m id with
  | some set => rfl
  | none =>
      by_cases h : ch = id
      · subst h
        simp [Radio.memberOfMap, mapSet_self, hm]
      · simp [Radio.memberOfMap, mapSet_other _ _ _ _ h]

/-- The set returned by `ensureChannelSet` holds exactly the current
members of the requested channel. -/
theorem mem_ensureSet (m : Radio.ChannelId → Option (List Radio.SocketId))
    (id : Radio.ChannelId) (x : Radio.SocketId) :
    (x ∈ (Radio.ensureChannelSet m id).2) ↔ Radio.memberOfMap m id x = true := by
  unfold Radio.ensureChannelSet
  cases hm : m id with
  | some set => simp [Radio.memberOfMap, hm]
  | none => simp [Radio.memberOfMap, hm]

/-- After `ensureChannelSet`, the requested channel's entry is exactly the
returned set. -/
theorem ensure_at_id (m : Radio.ChannelId → Option (List Radio.SocketId))
    (id : Radio.ChannelId) :
    (Radio.ensureChannelSet m id).1 id = some (Radio.ensureChannelSet m id).2 := by
  unfold Radio.ensureChannelSet
  cases hm : m id with
  | some set => simpa using hm
  | none => simp [mapSet_self]

/-- Rooms after a `roomsJoin`. -/
theorem mem_roomsJoin (r : Radio.SocketId → List Radio.ChannelId)
    (sid : Radio.SocketId) (ch : Radio.ChannelId) (x : Radio.SocketId)
    (c : Radio.ChannelId) :
    c ∈ Radio.roomsJoin r sid ch x ↔
      (x = sid ∧ (c = ch ∨ c ∈ r x)) ∨ (x ≠ sid ∧ c ∈ r x) := by
  unfold Radio.roomsJoin
  by_cases h : x = sid
  · subst h
    simp [mem_listInsert]
  · simp [h]

/-- Rooms after a `roomsLeave`. -/
theorem mem_roomsLeave (r : Radio.SocketId → List Radio.ChannelId)
    (sid : Radio.SocketId) (ch : Radio.ChannelId) (x : Radio.SocketId)
    (c : Radio.ChannelId) :
    c ∈ Radio.roomsLeave r sid ch x ↔
      (x = sid ∧ (c ∈ r x ∧ c ≠ ch)) ∨ (x ≠ sid ∧ c ∈ r x) := by
  unfold Radio.roomsLeave
  by_cases h : x = sid
  · subst h
    simp [mem_listRemove]
  · simp [h]

/-- The invariant ignores the channel directory. -/
theorem inv_channels_irrel (s : Radio.ServerState) (c : List Radio.Channel)
    (hInv : Radio.Inv s) : Radio.Inv { s with channels := c } :=
  hInv

/-- The initial state satisfies the invariant. -/
theorem inv_init : Radio.Inv Radio.initState := by
  refine ⟨?_, ?_, ?_, ?_⟩
  · intro ch sid hne
    simp [Radio.memberOf, Radio.memberOfMap, Radio.clientPrimary, Radio.initState]
  · intro sid ch hch hne
    simp [Radio.initState] at hch
  · intro sid ch hch
    simp [Radio.clientPrimary, Radio.initState] at hch
  · intro sid h
    rfl

/-- The `clientPrimary` under a known registry entry. -/
theorem clientPrimary_of_eq {s : Radio.ServerState} {x : Radio.SocketId}
    {st : Radio.ClientState} (h : s.clients x = some st) :
    Radio.clientPrimary s x = st.currentChannel := by
  unfold Radio.clientPrimary
  rw [h]

/-- The `clientPrimary` of an unregistered socket. -/
theorem clientPrimary_of_none {s : Radio.ServerState} {x : Radio.SocketId}
    (h : s.clients x = none) : Radio.clientPrimary s x = none := by
  unfold Radio.clientPrimary
  rw [h]

/-- The `clientMonitoring` under a known registry entry. -/
theorem clientMonitoring_of_eq {s : Radio.ServerState} {x : Radio.SocketId}
    {st : Radio.ClientState} (h : s.clients x = some st) :
    Radio.clientMonitoring s x = st.monitoring := by
  unfold Radio.clientMonitoring
  rw [h]

/-- The `clientMonitoring` of an unregistered socket. -/
theorem clientMonitoring_of_none {s : Radio.ServerState} {x : Radio.SocketId}
    (h : s.clients x = none) : Radio.clientMonitoring s x = [] := by
  unfold Radio.clientMonitoring
  rw [h]

/-- The `clientPrimary` after updating the same socket's entry. -/
theorem clientPrimary_set_self (s : Radio.ServerState) (sid : Radio.SocketId)
    (v : Radio.ClientState) :
    Radio.clientPrimary { s with clients := Radio.mapSet s.clients sid v } sid =
      v.currentChannel := by
  unfold Radio.clientPrimary
  dsimp only
  rw [mapSet_self]

/-- The `clientPrimary` after updating another socket's entry. -/
theorem clientPrimary_set_other (s : Radio.ServerState) (sid : Radio.SocketId)
    (v : Radio.ClientState) (x : Radio.SocketId) (hx : x ≠ sid) :
    Radio.clientPrimary { s with clients := Radio.mapSet s.clients sid v } x =
      Radio.clientPrimary s x := by
  unfold Radio.clientPrimary
  dsimp only
  rw [mapSet_other _ _ _ _ hx]

/-- The `clientMonitoring` after updating the same socket's entry. -/
theorem clientMonitoring_set_self (s : Radio.ServerState) (sid : Radio.SocketId)
    (v : Radio.ClientState) :
    Radio.clientMonitoring
        { s with clients := Radio.mapSet s.clients sid v } sid =
      v.monitoring := by
  unfold Radio.clientMonitoring
  dsimp only
  rw [mapSet_self]

/-- The `clientMonitoring` after updating another socket's entry. -/
theorem clientMonitoring_set_other (s : Radio.ServerState) (sid : Radio.SocketId)
    (v : Radio.ClientState) (x : Radio.SocketId) (hx : x ≠ sid) :
    Radio.clientMonitoring { s with clients := Radio.mapSet s.clients sid v } x =
      Radio.clientMonitoring s x := by
  unfold Radio.clientMonitoring
  dsimp only
  rw [mapSet_other _ _ _ _ hx]

/-- The `memberOf` ignores the registry. -/
theorem memberOf_withClients (s : Radio.ServerState)
    (c : Radio.SocketId → Option Radio.ClientState) (ch : Radio.ChannelId)
    (x : Radio.SocketId) :
    Radio.memberOf { s with clients := c } ch x = Radio.memberOf s ch x := rfl

/-- The `ptt_stop` never changes state. -/
theorem pttStop_state (s : Radio.ServerState) (sid : Radio.SocketId) :
    (Radio.handlePttStop s sid).1 = s := by
  unfold Radio.handlePttStop
  cases hcl : s.clients sid with
  | none => rfl
  | some st =>
      obtain ⟨u, cc, mon, sts⟩ := st
      cases cc with
      | none => rfl
      | some ch => by_cases hce : ch = "" <;> simp [hce]

/-- The `getChannels` never changes state. -/
theorem getChannels_state (s : Radio.ServerState) (sid : Radio.SocketId) :
    (Radio.handleGetChannels s sid).1 = s := by
  unfold Radio.handleGetChannels
  cases hcl : s.clients sid with
  | none => rfl
  | some st => rfl

/-- Updating one session without touching its primary channel or its
monitoring set preserves the invariant. -/
theorem inv_statsOnly (s : Radio.ServerState) (sid : Radio.SocketId)
    (st st2 : Radio.ClientState) (hInv : Radio.Inv s)
    (hcl : s.clients sid = some st)
    (hcc : st2.currentChannel = st.currentChannel)
    (hmon : st2.monitoring = st.monitoring) :
    Radio.Inv { s with clients := Radio.mapSet s.clients sid st2 } := by
  obtain ⟨h1, h2, h3, h4⟩ := hInv
  have hp : ∀ x, Radio.clientPrimary
      { s with clients := Radio.mapSet s.clients sid st2 } x =
      Radio.clientPrimary s x := by
    intro x
    by_cases hx : x = sid
    · subst hx
      rw [clientPrimary_set_self, clientPrimary_of_eq hcl, hcc]
    · exact clientPrimary_set_other s sid st2 x hx
  have hmm : ∀ x, Radio.clientMonitoring
      { s with clients := Radio.mapSet s.clients sid st2 } x =
      Radio.clientMonitoring s x := by
    intro x
    by_cases hx : x = sid
    · subst hx
      rw [clientMonitoring_set_self, clientMonitoring_of_eq hcl, hmon]
    · exact clientMonitoring_set_other s sid st2 x hx
  refine ⟨?_, ?_, ?_, ?_⟩
  · intro ch x hne
    rw [memberOf_withClients, hp x]
    exact h1 ch x hne
  · intro x ch hch hne
    rw [hp x, hmm x]
    exact h2 x ch hch hne
  · intro x ch hch
    rw [hp x] at hch
    exact h3 x ch hch
  · intro x hx
    have hx' : Radio.mapSet s.clients sid st2 x = none := hx
    by_cases hxs : x = sid
    · subst hxs
      rw [mapSet_self] at hx'
      exact Option.noConfusion hx'
    · rw [mapSet_other _ _ _ _ hxs] at hx'
      exact h4 x hx'

/-- The `ptt_start` preserves the invariant. -/
theorem inv_pttStart (s : Radio.ServerState) (sid : Radio.SocketId) (now : Nat)
    (hInv : Radio.Inv s) : Radio.Inv (Radio.handlePttStart s sid now).1 := by
  unfold Radio.handlePttStart
  cases hcl : s.clients sid with
  | none => exact hInv
  | some st =>
      obtain ⟨u, cc, mon, sts⟩ := st
      cases cc with
      | none => exact hInv
      | some ch =>
          dsimp only
          by_cases hce : ch = ""
          · rw [if_pos hce]
            exact hInv
          · rw [if_neg hce]
            by_cases hlim :
                (sts.pttStarts.filter (fun t => now - t < 10000)).length ≥
                  Radio.MAX_PTT_STARTS_PER_10S
            · rw [if_pos hlim]
              exact inv_statsOnly s sid _ _ hInv hcl rfl rfl
            · rw [if_neg hlim]
              exact inv_statsOnly s sid _ _ hInv hcl rfl rfl

/-- The `signal` preserves the invariant. -/
theorem inv_signal (s : Radio.ServerState) (sid : Radio.SocketId)
    (now chunk : Nat) (hInv : Radio.Inv s) :
    Radio.Inv (Radio.handleSignal s sid now chunk).1 := by
  unfold Radio.handleSignal
  cases hcl : s.clients sid with
  | none => exact hInv
  | some st =>
      obtain ⟨u, cc, mon, sts⟩ := st
      cases cc with
      | none => exact hInv
      | some ch =>
          dsimp only
          by_cases hce : ch = ""
          · rw [if_pos hce]
            exact hInv
          · rw [if_neg hce]
            by_cases hcap : Radio.bucketCount
                ((Radio.bumpBucket sts.chunksPerSecond (now / 1000)).filter
                  (fun p => !(p.1 < now / 1000 - 5))) (now / 1000) >
                Radio.MAX_CHUNKS_PER_SECOND
            · rw [if_pos hcap]
              exact inv_statsOnly s sid _ _ hInv hcl rfl rfl
            · rw [if_neg hcap]
              exact inv_statsOnly s sid _ _ hInv hcl rfl rfl

/-- The `connection` preserves the invariant. -/
theorem inv_connect (s : Radio.ServerState) (sid : Radio.SocketId)
    (result : Option Radio.User) (hInv : Radio.Inv s) :
    Radio.Inv (Radio.handleConnect s sid result).1 := by
  obtain ⟨h1, h2, h3, h4⟩ := hInv
  unfold Radio.handleConnect
  by_cases hex : (s.clients sid).isSome = true
  · rw [if_pos hex]
    exact ⟨h1, h2, h3, h4⟩
  · rw [if_neg hex]
    have hnone : s.clients sid = none := by
      cases hc : s.clients sid with
      | none => rfl
      | some st => rw [hc] at hex; simp at hex
    cases result with
    | none => exact ⟨h1, h2, h3, h4⟩
    | some user =>
        dsimp only
        refine ⟨?_, ?_, ?_, ?_⟩
        · intro ch x hne
          rw [memberOf_withClients]
          by_cases hx : x = sid
          · subst hx
            rw [clientPrimary_set_self, h1 ch x hne, clientPrimary_of_none hnone]
          · rw [clientPrimary_set_other s sid _ x hx]
            exact h1 ch x hne
        · intro x ch hch hne
          by_cases hx : x = sid
          · subst hx
            have hch' : ch ∈ s.rooms x := hch
            rw [h4 x hnone] at hch'
            cases hch'
          · rw [clientPrimary_set_other s sid _ x hx,
              clientMonitoring_set_other s sid _ x hx]
            exact h2 x ch hch hne
        · intro x ch hch
          by_cases hx : x = sid
          · subst hx
            rw [clientPrimary_set_self] at hch
            cases hch
          · rw [clientPrimary_set_other s sid _ x hx] at hch
            exact h3 x ch hch
        · intro x hx
          have hx' : Radio.mapSet s.clients sid
              { user := user, currentChannel := none, monitoring := [],
                stats := { pttStarts := [], chunksPerSecond := [] } } x =
              none := hx
          by_cases hxs : x = sid
          · subst hxs
            rw [mapSet_self] at hx'
            exact Option.noConfusion hx'
          · rw [mapSet_other _ _ _ _ hxs] at hx'
            exact h4 x hx'

/-- The `monitorChannel` preserves the invariant. -/
theorem inv_monitor (s : Radio.ServerState) (sid : Radio.SocketId)
    (channelId : Radio.ChannelId) (hInv : Radio.Inv s) :
    Radio.Inv (Radio.handleMonitor s sid channelId).1 := by
  obtain ⟨h1, h2, h3, h4⟩ := hInv
  unfold Radio.handleMonitor
  cases hcl : s.clients sid with
  | none => exact ⟨h1, h2, h3, h4⟩
  | some st =>
      dsimp only
      by_cases hstaff : Radio.userIsStaff st.user = true
      · rw [if_neg (by simp [hstaff])]
        cases hch : Radio.getChannelById s.channels channelId with
        | none => exact ⟨h1, h2, h3, h4⟩
        | some c =>
            dsimp only
            by_cases hmon : channelId ∈ st.monitoring
            · rw [if_pos hmon]
              exact ⟨h1, h2, h3, h4⟩
            · rw [if_neg hmon]
              dsimp only
              refine ⟨?_, ?_, ?_, ?_⟩
              · intro ch x hcne
                have hh := h1 ch x hcne
                unfold Radio.memberOf Radio.memberOfMap Radio.clientPrimary at hh ⊢
                dsimp only at hh ⊢
                by_cases hx : x = sid
                · subst hx
                  rw [mapSet_self]
                  rw [hcl] at hh
                  dsimp only at hh ⊢
                  exact hh
                · rw [mapSet_other _ _ _ _ hx]
                  exact hh
              · intro x ch hch2 hcne
                by_cases hx : x = sid
                · subst hx
                  have hch3 : ch ∈ Radio.roomsJoin s.rooms x channelId x := hch2
                  rw [mem_roomsJoin] at hch3
                  unfold Radio.clientPrimary Radio.clientMonitoring
                  dsimp only
                  rw [mapSet_self]
                  dsimp only
                  rcases hch3 with ⟨-, (rfl | hin)⟩ | ⟨hne, -⟩
                  · right
                    simp
                  · have h0 := h2 x ch hin hcne
                    rw [clientPrimary_of_eq hcl, clientMonitoring_of_eq hcl] at h0
                    rcases h0 with h0 | h0
                    · exact Or.inl h0
                    · right
                      simp [h0]
                  · exact absurd rfl hne
                · have hch3 : ch ∈ Radio.roomsJoin s.rooms sid channelId x := hch2
                  rw [mem_roomsJoin] at hch3
                  rcases hch3 with ⟨hxx, -⟩ | ⟨-, hin⟩
                  · exact absurd hxx hx
                  · have h0 := h2 x ch hin hcne
                    unfold Radio.clientPrimary Radio.clientMonitoring at h0 ⊢
                    dsimp only at h0 ⊢
                    rw [mapSet_other _ _ _ _ hx]
                    exact h0
              · intro x ch hpc
                by_cases hx : x = sid
                · subst hx
                  unfold Radio.clientPrimary at hpc
                  dsimp only at hpc
                  rw [mapSet_self] at hpc
                  dsimp only at hpc
                  have h0 := h3 x ch (by rw [clientPrimary_of_eq hcl]; exact hpc)
                  show ch ∈ Radio.roomsJoin s.rooms x channelId x
                  rw [mem_roomsJoin]
                  exact Or.inl ⟨rfl, Or.inr h0⟩
                · have h0 : Radio.clientPrimary s x = some ch := by
                    unfold Radio.clientPrimary at hpc ⊢
                    dsimp only at hpc
                    rw [mapSet_other _ _ _ _ hx] at hpc
                    exact hpc
                  have h5 := h3 x ch h0
                  show ch ∈ Radio.roomsJoin s.rooms sid channelId x
                  rw [mem_roomsJoin]
                  exact Or.inr ⟨hx, h5⟩
              · intro x hx
                have hx' : Radio.mapSet s.clients sid
                    { st with monitoring := st.monitoring ++ [channelId] } x =
                    none := hx
                by_cases hxs : x = sid
                · subst hxs
                  rw [mapSet_self] at hx'
                  exact Option.noConfusion hx'
                · rw [mapSet_other _ _ _ _ hxs] at hx'
                  have h5 := h4 x hx'
                  show Radio.roomsJoin s.rooms sid channelId x = []
                  unfold Radio.roomsJoin
                  rw [if_neg hxs]
                  exact h5
      · have hfalse : Radio.userIsStaff st.user = false := by
          revert hstaff
          cases Radio.userIsStaff st.user <;> simp
        rw [if_pos (by rw [hfalse]; rfl)]
        exact ⟨h1, h2, h3, h4⟩

/-- The `unmonitorChannel` preserves the invariant. -/
theorem inv_unmonitor (s : Radio.ServerState) (sid : Radio.SocketId)
    (channelId : Radio.ChannelId) (hInv : Radio.Inv s) :
    Radio.Inv (Radio.handleUnmonitor s sid channelId).1 := by
  obtain ⟨h1, h2, h3, h4⟩ := hInv
  unfold Radio.handleUnmonitor
  cases hcl : s.clients sid with
  | none => exact ⟨h1, h2, h3, h4⟩
  | some st =>
      dsimp only
      by_cases hstaff : Radio.userIsStaff st.user = true
      · rw [if_neg (by simp [hstaff])]
        by_cases hmon : channelId ∈ st.monitoring
        · rw [if_neg (not_not_intro hmon)]
          dsimp only
          by_cases hceq : st.currentChannel = some channelId
          · rw [if_neg (not_not_intro hceq)]
            refine ⟨?_, ?_, ?_, ?_⟩
            · intro ch x hcne
              have hh := h1 ch x hcne
              unfold Radio.memberOf Radio.memberOfMap Radio.clientPrimary at hh ⊢
              dsimp only at hh ⊢
              by_cases hx : x = sid
              · subst hx
                rw [mapSet_self]
                rw [hcl] at hh
                dsimp only at hh ⊢
                exact hh
              · rw [mapSet_other _ _ _ _ hx]
                exact hh
            · intro x ch hch2 hcne
              by_cases hx : x = sid
              · subst hx
                have h0 := h2 x ch hch2 hcne
                rw [clientPrimary_of_eq hcl, clientMonitoring_of_eq hcl] at h0
                unfold Radio.clientPrimary Radio.clientMonitoring
                dsimp only
                rw [mapSet_self]
                dsimp only
                rcases h0 with h0 | h0
                · exact Or.inl h0
                · by_cases hcc : ch = channelId
                  · subst hcc
                    exact Or.inl hceq
                  · right
                    rw [mem_listRemove]
                    exact ⟨h0, hcc⟩
              · have h0 := h2 x ch hch2 hcne
                unfold Radio.clientPrimary Radio.clientMonitoring at h0 ⊢
                dsimp only at h0 ⊢
                rw [mapSet_other _ _ _ _ hx]
                exact h0
            · intro x ch hpc
              by_cases hx : x = sid
              · subst hx
                unfold Radio.clientPrimary at hpc
                dsimp only at hpc
                rw [mapSet_self] at hpc
                dsimp only at hpc
                exact h3 x ch (by rw [clientPrimary_of_eq hcl]; exact hpc)
              · have h0 : Radio.clientPrimary s x = some ch := by
                  unfold Radio.clientPrimary at hpc ⊢
                  dsimp only at hpc
                  rw [mapSet_other _ _ _ _ hx] at hpc
                  exact hpc
                exact h3 x ch h0
            · intro x hx
              have hx' : Radio.mapSet s.clients sid
                  { st with monitoring :=
                      Radio.listRemove channelId st.monitoring } x = none := hx
              by_cases hxs : x = sid
              · subst hxs
                rw [mapSet_self] at hx'
                exact Option.noConfusion hx'
              · rw [mapSet_other _ _ _ _ hxs] at hx'
                exact h4 x hx'
          · rw [if_pos hceq]
            refine ⟨?_, ?_, ?_, ?_⟩
            · intro ch x hcne
              have hh := h1 ch x hcne
              unfold Radio.memberOf Radio.memberOfMap Radio.clientPrimary at hh ⊢
              dsimp only at hh ⊢
              by_cases hx : x = sid
              · subst hx
                rw [mapSet_self]
                rw [hcl] at hh
                dsimp only at hh ⊢
                exact hh
              · rw [mapSet_other _ _ _ _ hx]
                exact hh
            · intro x ch hch2 hcne
              by_cases hx : x = sid
              · subst hx
                have hch3 : ch ∈ Radio.roomsLeave s.rooms x channelId x := hch2
                rw [mem_roomsLeave] at hch3
                rcases hch3 with ⟨-, hin, hne⟩ | ⟨hne, -⟩
                · have h0 := h2 x ch hin hcne
                  rw [clientPrimary_of_eq hcl, clientMonitoring_of_eq hcl] at h0
                  unfold Radio.clientPrimary Radio.clientMonitoring
                  dsimp only
                  rw [mapSet_self]
                  dsimp only
                  rcases h0 with h0 | h0
                  · exact Or.inl h0
                  · right
                    rw [mem_listRemove]
                    exact ⟨h0, hne⟩
                · exact absurd rfl hne
              · have hch3 : ch ∈ Radio.roomsLeave s.rooms sid channelId x := hch2
                rw [mem_roomsLeave] at hch3
                rcases hch3 with ⟨hxx, -⟩ | ⟨-, hin⟩
                · exact absurd hxx hx
                · have h0 := h2 x ch hin hcne
                  unfold Radio.clientPrimary Radio.clientMonitoring at h0 ⊢
                  dsimp only at h0 ⊢
                  rw [mapSet_other _ _ _ _ hx]
                  exact h0
            · intro x ch hpc
              by_cases hx : x = sid
              · subst hx
                unfold Radio.clientPrimary at hpc
                dsimp only at hpc
                rw [mapSet_self] at hpc
                dsimp only at hpc
                have h0 := h3 x ch (by rw [clientPrimary_of_eq hcl]; exact hpc)
                show ch ∈ Radio.roomsLeave s.rooms x channelId x
                rw [mem_roomsLeave]
                left
                refine ⟨rfl, h0, ?_⟩
                intro hcc
                subst hcc
                exact hceq hpc
              · have h0 : Radio.clientPrimary s x = some ch := by
                  unfold Radio.clientPrimary at hpc ⊢
                  dsimp only at hpc
                  rw [mapSet_other _ _ _ _ hx] at hpc
                  exact hpc
                have h5 := h3 x ch h0
                show ch ∈ Radio.roomsLeave s.rooms sid channelId x
                rw [mem_roomsLeave]
                exact Or.inr ⟨hx, h5⟩
            · intro x hx
              have hx' : Radio.mapSet s.clients sid
                  { st with monitoring :=
                      Radio.listRemove channelId st.monitoring } x = none := hx
              by_cases hxs : x = sid
              · subst hxs
                rw [mapSet_self] at hx'
                exact Option.noConfusion hx'
              · rw [mapSet_other _ _ _ _ hxs] at hx'
                have h5 := h4 x hx'
                show Radio.roomsLeave s.rooms sid channelId x = []
                unfold Radio.roomsLeave
                rw [if_neg hxs]
                exact h5
        · rw [if_pos hmon]
          exact ⟨h1, h2, h3, h4⟩
      · have hfalse : Radio.userIsStaff st.user = false := by
          revert hstaff
          cases Radio.userIsStaff st.user <;> simp
        rw [if_pos (by rw [hfalse]; rfl)]
        exact ⟨h1, h2, h3, h4⟩

/-- Rooms after a `roomsClear`. -/
theorem mem_roomsClear (r : Radio.SocketId → List Radio.ChannelId)
    (sid x : Radio.SocketId) (c : Radio.ChannelId) :
    c ∈ Radio.roomsClear r sid x ↔ x ≠ sid ∧ c ∈ r x := by
  unfold Radio.roomsClear
  by_cases h : x = sid
  · subst h
    simp
  · simp [h]

/-- The `disconnect` preserves the invariant. -/
theorem inv_disconnect (s : Radio.ServerState) (sid : Radio.SocketId)
    (hInv : Radio.Inv s) : Radio.Inv (Radio.handleDisconnect s sid).1 := by
  obtain ⟨h1, h2, h3, h4⟩ := hInv
  unfold Radio.handleDisconnect
  dsimp only
  cases hcl : s.clients sid with
  | none =>
      refine ⟨?_, ?_, ?_, ?_⟩
      · intro ch x hcne
        exact h1 ch x hcne
      · intro x ch hch2 hcne
        have hch3 : ch ∈ Radio.roomsClear s.rooms sid x := hch2
        rw [mem_roomsClear] at hch3
        exact h2 x ch hch3.2 hcne
      · intro x ch hpc
        have h0 : Radio.clientPrimary s x = some ch := hpc
        have h5 := h3 x ch h0
        show ch ∈ Radio.roomsClear s.rooms sid x
        rw [mem_roomsClear]
        refine ⟨?_, h5⟩
        intro hx
        subst hx
        rw [clientPrimary_of_none hcl] at h0
        cases h0
      · intro x hx
        by_cases hxs : x = sid
        · subst hxs
          show Radio.roomsClear s.rooms x x = []
          unfold Radio.roomsClear
          simp
        · have h5 := h4 x hx
          show Radio.roomsClear s.rooms sid x = []
          unfold Radio.roomsClear
          rw [if_neg hxs]
          exact h5
  | some st =>
      obtain ⟨u, cc, mon, sts⟩ := st
      cases cc with
      | none =>
          dsimp only
          refine ⟨?_, ?_, ?_, ?_⟩
          · intro ch x hcne
            have hh := h1 ch x hcne
            unfold Radio.memberOf Radio.memberOfMap Radio.clientPrimary at hh ⊢
            dsimp only at hh ⊢
            by_cases hx : x = sid
            · subst hx
              rw [mapDel_self]
              rw [hcl] at hh
              dsimp only at hh
              constructor
              · intro hmem
                cases hh.mp hmem
              · intro hnone
                cases hnone
            · rw [mapDel_other _ _ _ hx]
              exact hh
          · intro x ch hch2 hcne
            have hch3 : ch ∈ Radio.roomsClear s.rooms sid x := hch2
            rw [mem_roomsClear] at hch3
            obtain ⟨hx, hin⟩ := hch3
            have h0 := h2 x ch hin hcne
            unfold Radio.clientPrimary Radio.clientMonitoring at h0 ⊢
            dsimp only at h0 ⊢
            rw [mapDel_other _ _ _ hx]
            exact h0
          · intro x ch hpc
            by_cases hx : x = sid
            · subst hx
              unfold Radio.clientPrimary at hpc
              dsimp only at hpc
              rw [mapDel_self] at hpc
              cases hpc
            · have h0 : Radio.clientPrimary s x = some ch := by
                unfold Radio.clientPrimary at hpc ⊢
                dsimp only at hpc
                rw [mapDel_other _ _ _ hx] at hpc
                exact hpc
              have h5 := h3 x ch h0
              show ch ∈ Radio.roomsClear s.rooms sid x
              rw [mem_roomsClear]
              exact ⟨hx, h5⟩
          · intro x hx
            by_cases hxs : x = sid
            · subst hxs
              show Radio.roomsClear s.rooms x x = []
              unfold Radio.roomsClear
              simp
            · have hx' : Radio.mapDel s.clients sid x = none := hx
              rw [mapDel_other _ _ _ hxs] at hx'
              have h5 := h4 x hx'
              show Radio.roomsClear s.rooms sid x = []
              unfold Radio.roomsClear
              rw [if_neg hxs]
              exact h5
      | some ch0 =>
          dsimp only
          by_cases hc0 : ch0 = ""
          · subst hc0
            rw [if_pos rfl]
            refine ⟨?_, ?_, ?_, ?_⟩
            · intro ch x hcne
              have hh := h1 ch x hcne
              unfold Radio.memberOf Radio.memberOfMap Radio.clientPrimary at hh ⊢
              dsimp only at hh ⊢
              by_cases hx : x = sid
              · subst hx
                rw [mapDel_self]
                rw [hcl] at hh
                dsimp only at hh
                constructor
                · intro hmem
                  have h5 := hh.mp hmem
                  injection h5 with h6
                  exact absurd h6.symm hcne
                · intro hnone
                  cases hnone
              · rw [mapDel_other _ _ _ hx]
                exact hh
            · intro x ch hch2 hcne
              have hch3 : ch ∈ Radio.roomsClear s.rooms sid x := hch2
              rw [mem_roomsClear] at hch3
              obtain ⟨hx, hin⟩ := hch3
              have h0 := h2 x ch hin hcne
              unfold Radio.clientPrimary Radio.clientMonitoring at h0 ⊢
              dsimp only at h0 ⊢
              rw [mapDel_other _ _ _ hx]
              exact h0
            · intro x ch hpc
              by_cases hx : x = sid
              · subst hx
                unfold Radio.clientPrimary at hpc
                dsimp only at hpc
                rw [mapDel_self] at hpc
                cases hpc
              · have h0 : Radio.clientPrimary s x = some ch := by
                  unfold Radio.clientPrimary at hpc ⊢
                  dsimp only at hpc
                  rw [mapDel_other _ _ _ hx] at hpc
                  exact hpc
                have h5 := h3 x ch h0
                show ch ∈ Radio.roomsClear s.rooms sid x
                rw [mem_roomsClear]
                exact ⟨hx, h5⟩
            · intro x hx
              by_cases hxs : x = sid
              · subst hxs
                show Radio.roomsClear s.rooms x x = []
                unfold Radio.roomsClear
                simp
              · have hx' : Radio.mapDel s.clients sid x = none := hx
                rw [mapDel_other _ _ _ hxs] at hx'
                have h5 := h4 x hx'
                show Radio.roomsClear s.rooms sid x = []
                unfold Radio.roomsClear
                rw [if_neg hxs]
                exact h5
          · rw [if_neg hc0]
            refine ⟨?_, ?_, ?_, ?_⟩
            · intro ch x hcne
              have hh := h1 ch x hcne
              unfold Radio.memberOf Radio.memberOfMap Radio.clientPrimary at hh ⊢
              dsimp only at hh ⊢
              by_cases hx : x = sid
              · subst hx
                rw [mapDel_self]
                by_cases hc : ch = ch0
                · subst hc
                  rw [mapSet_self]
                  constructor
                  · intro hmem
                    simp only [decide_eq_true_eq] at hmem
                    rw [mem_listRemove] at hmem
                    exact absurd rfl hmem.2
                  · intro hnone
                    cases hnone
                · rw [mapSet_other _ _ _ _ hc]
                  have he := memberOfMap_ensure s.channelMembers ch0 ch x
                  unfold Radio.memberOfMap at he
                  rw [he]
                  rw [hcl] at hh
                  dsimp only at hh
                  constructor
                  · intro hmem
                    have h5 := hh.mp hmem
                    cases h5
                    exact absurd rfl hc
                  · intro hnone
                    cases hnone
              · rw [mapDel_other _ _ _ hx]
                by_cases hc : ch = ch0
                · subst hc
                  rw [mapSet_self]
                  constructor
                  · intro hmem
                    simp only [decide_eq_true_eq] at hmem
                    rw [mem_listRemove] at hmem
                    have h5 := (mem_ensureSet s.channelMembers ch x).mp hmem.1
                    have h0 := (h1 ch x hcne).mp (by
                      unfold Radio.memberOf
                      exact h5)
                    unfold Radio.clientPrimary at h0
                    exact h0
                  · intro hpr
                    have h0 := (h1 ch x hcne).mpr (by
                      unfold Radio.clientPrimary
                      exact hpr)
                    have hm : x ∈ (Radio.ensureChannelSet s.channelMembers ch).2 :=
                      (mem_ensureSet s.channelMembers ch x).mpr (by
                        unfold Radio.memberOf at h0
                        exact h0)
                    simp only [decide_eq_true_eq]
                    rw [mem_listRemove]
                    exact ⟨hm, hx⟩
                · rw [mapSet_other _ _ _ _ hc]
                  have he := memberOfMap_ensure s.channelMembers ch0 ch x
                  unfold Radio.memberOfMap at he
                  rw [he]
                  exact hh
            · intro x ch hch2 hcne
              have hch3 : ch ∈ Radio.roomsClear s.rooms sid x := hch2
              rw [mem_roomsClear] at hch3
              obtain ⟨hx, hin⟩ := hch3
              have h0 := h2 x ch hin hcne
              unfold Radio.clientPrimary Radio.clientMonitoring at h0 ⊢
              dsimp only at h0 ⊢
              rw [mapDel_other _ _ _ hx]
              exact h0
            · intro x ch hpc
              by_cases hx : x = sid
              · subst hx
                unfold Radio.clientPrimary at hpc
                dsimp only at hpc
                rw [mapDel_self] at hpc
                cases hpc
              · have h0 : Radio.clientPrimary s x = some ch := by
                  unfold Radio.clientPrimary at hpc ⊢
                  dsimp only at hpc
                  rw [mapDel_other _ _ _ hx] at hpc
                  exact hpc
                have h5 := h3 x ch h0
                show ch ∈ Radio.roomsClear s.rooms sid x
                rw [mem_roomsClear]
                exact ⟨hx, h5⟩
            · intro x hx
              by_cases hxs : x = sid
              · subst hxs
                show Radio.roomsClear s.rooms x x = []
                unfold Radio.roomsClear
                simp
              · have hx' : Radio.mapDel s.clients sid x = none := hx
                rw [mapDel_other _ _ _ hxs] at hx'
                have h5 := h4 x hx'
                show Radio.roomsClear s.rooms sid x = []
                unfold Radio.roomsClear
                rw [if_neg hxs]
                exact h5

/-- The `clientPrimary` of an explicitly built state. -/
theorem clientPrimary_mk (chs : List Radio.Channel)
    (cl : Radio.SocketId → Option Radio.ClientState)
    (cm : Radio.ChannelId → Option (List Radio.SocketId))
    (rm : Radio.SocketId → List Radio.ChannelId) (x : Radio.SocketId) :
    Radio.clientPrimary ⟨chs, cl, cm, rm⟩ x =
      (match cl x with
        | some st => st.currentChannel
        | none => none) := rfl

/-- The `clientMonitoring` of an explicitly built state. -/
theorem clientMonitoring_mk (chs : List Radio.Channel)
    (cl : Radio.SocketId → Option Radio.ClientState)
    (cm : Radio.ChannelId → Option (List Radio.SocketId))
    (rm : Radio.SocketId → List Radio.ChannelId) (x : Radio.SocketId) :
    Radio.clientMonitoring ⟨chs, cl, cm, rm⟩ x =
      (match cl x with
        | some st => st.monitoring
        | none => []) := rfl

/-- The `memberOf` of an explicitly built state. -/
theorem memberOf_mk (chs : List Radio.Channel)
    (cl : Radio.SocketId → Option Radio.ClientState)
    (cm : Radio.ChannelId → Option (List Radio.SocketId))
    (rm : Radio.SocketId → List Radio.ChannelId) (ch : Radio.ChannelId)
    (x : Radio.SocketId) :
    Radio.memberOf ⟨chs, cl, cm, rm⟩ ch x = Radio.memberOfMap cm ch x := rfl

/-- Room membership of an explicitly built state. -/
theorem mem_rooms_mk (chs : List Radio.Channel)
    (cl : Radio.SocketId → Option Radio.ClientState)
    (cm : Radio.ChannelId → Option (List Radio.SocketId))
    (rm : Radio.SocketId → List Radio.ChannelId) (c : Radio.ChannelId)
    (x : Radio.SocketId) :
    c ∈ (⟨chs, cl, cm, rm⟩ : Radio.ServerState).rooms x ↔ c ∈ rm x :=
  Iff.rfl

/-- The `joinChannel` preserves the invariant. -/
theorem inv_join (s : Radio.ServerState) (sid : Radio.SocketId)
    (channelId : Radio.ChannelId) (hInv : Radio.Inv s) :
    Radio.Inv (Radio.handleJoin s sid channelId).1 := by
  obtain ⟨h1, h2, h3, h4⟩ := hInv
  unfold Radio.handleJoin
  cases hcl : s.clients sid with
  | none => exact ⟨h1, h2, h3, h4⟩
  | some st =>
      obtain ⟨u, cc, mon, sts⟩ := st
      dsimp only
      cases hch : Radio.getChannelById s.channels channelId with
      | none => exact ⟨h1, h2, h3, h4⟩
      | some channel =>
          dsimp only
          by_cases hallow : Radio.userCanJoinChannel u channel = true
          case neg =>
            have hfalse : Radio.userCanJoinChannel u channel = false := by
              revert hallow
              cases Radio.userCanJoinChannel u channel <;> simp
            rw [if_pos (by rw [hfalse]; rfl)]
            exact ⟨h1, h2, h3, h4⟩
          case pos =>
            rw [if_neg (by rw [hallow]; intro hk; cases hk)]
            cases cc with
            | none =>
                dsimp only
                refine ⟨?_, ?_, ?_, ?_⟩
                · intro ch x hcne
                  have hh := h1 ch x hcne
                  rw [memberOf_mk, clientPrimary_mk, memberOfMap_mapSet]
                  by_cases hc : ch = channelId
                  · rw [if_pos hc]
                    subst hc
                    by_cases hx : x = sid
                    · subst hx
                      rw [mapSet_self]
                      dsimp only
                      simp only [decide_eq_true_eq, mem_listInsert]
                      constructor
                      · intro _
                        trivial
                      · intro _
                        exact Or.inl trivial
                    · rw [mapSet_other _ _ _ _ hx]
                      simp only [decide_eq_true_eq, mem_listInsert,
                        mem_ensureSet]
                      constructor
                      · rintro (rfl | hmem)
                        · exact absurd rfl hx
                        · exact hh.mp hmem
                      · intro hpr
                        exact Or.inr (hh.mpr hpr)
                  · rw [if_neg hc, memberOfMap_ensure]
                    by_cases hx : x = sid
                    · subst hx
                      rw [mapSet_self]
                      dsimp only
                      constructor
                      · intro hmem
                        have h5 := hh.mp hmem
                        rw [clientPrimary_of_eq hcl] at h5
                        exact Option.noConfusion h5
                      · intro hpr
                        cases hpr
                        exact absurd rfl hc
                    · rw [mapSet_other _ _ _ _ hx]
                      exact hh
                · intro x ch hch2 hcne
                  rw [clientPrimary_mk, clientMonitoring_mk]
                  have hch3 : ch ∈ Radio.roomsJoin s.rooms sid channelId x :=
                    hch2
                  rw [mem_roomsJoin] at hch3
                  by_cases hx : x = sid
                  · subst hx
                    rw [mapSet_self]
                    dsimp only
                    rcases hch3 with ⟨-, (rfl | hin)⟩ | ⟨hne, -⟩
                    · exact Or.inl rfl
                    · have h0 := h2 x ch hin hcne
                      rw [clientPrimary_of_eq hcl,
                        clientMonitoring_of_eq hcl] at h0
                      dsimp only at h0
                      rcases h0 with h0 | h0
                      · exact Option.noConfusion h0
                      · exact Or.inr h0
                    · exact absurd rfl hne
                  · rw [mapSet_other _ _ _ _ hx]
                    rcases hch3 with ⟨hxx, -⟩ | ⟨-, hin⟩
                    · exact absurd hxx hx
                    · exact h2 x ch hin hcne
                · intro x ch hpc
                  rw [clientPrimary_mk] at hpc
                  by_cases hx : x = sid
                  · subst hx
                    rw [mapSet_self] at hpc
                    dsimp only at hpc
                    rw [mem_rooms_mk, mem_roomsJoin]
                    injection hpc with h6
                    exact Or.inl ⟨rfl, Or.inl h6.symm⟩
                  · rw [mapSet_other _ _ _ _ hx] at hpc
                    have h5 := h3 x ch hpc
                    rw [mem_rooms_mk, mem_roomsJoin]
                    exact Or.inr ⟨hx, h5⟩
                · intro x hx
                  have hx' : Radio.mapSet s.clients sid
                      ⟨u, some channelId, mon, sts⟩ x = none := hx
                  by_cases hxs : x = sid
                  · subst hxs
                    rw [mapSet_self] at hx'
                    exact Option.noConfusion hx'
                  · rw [mapSet_other _ _ _ _ hxs] at hx'
                    have h5 := h4 x hx'
                    show Radio.roomsJoin s.rooms sid channelId x = []
                    unfold Radio.roomsJoin
                    rw [if_neg hxs]
                    exact h5
            | some prev =>
                dsimp only
                by_cases hpe : prev = ""
                · subst hpe
                  rw [if_pos rfl]
                  dsimp only
                  refine ⟨?_, ?_, ?_, ?_⟩
                  · intro ch x hcne
                    have hh := h1 ch x hcne
                    rw [memberOf_mk, clientPrimary_mk, memberOfMap_mapSet]
                    by_cases hc : ch = channelId
                    · rw [if_pos hc]
                      subst hc
                      by_cases hx : x = sid
                      · subst hx
                        rw [mapSet_self]
                        dsimp only
                        simp only [decide_eq_true_eq, mem_listInsert]
                        constructor
                        · intro _
                          trivial
                        · intro _
                          exact Or.inl trivial
                      · rw [mapSet_other _ _ _ _ hx]
                        simp only [decide_eq_true_eq, mem_listInsert,
                          mem_ensureSet]
                        constructor
                        · rintro (rfl | hmem)
                          · exact absurd rfl hx
                          · exact hh.mp hmem
                        · intro hpr
                          exact Or.inr (hh.mpr hpr)
                    · rw [if_neg hc, memberOfMap_ensure]
                      by_cases hx : x = sid
                      · subst hx
                        rw [mapSet_self]
                        dsimp only
                        constructor
                        · intro hmem
                          have h5 := hh.mp hmem
                          rw [clientPrimary_of_eq hcl] at h5
                          dsimp only at h5
                          injection h5 with h6
                          exact absurd h6.symm hcne
                        · intro hpr
                          cases hpr
                          exact absurd rfl hc
                      · rw [mapSet_other _ _ _ _ hx]
                        exact hh
                  · intro x ch hch2 hcne
                    rw [clientPrimary_mk, clientMonitoring_mk]
                    have hch3 : ch ∈ Radio.roomsJoin s.rooms sid channelId x :=
                      hch2
                    rw [mem_roomsJoin] at hch3
                    by_cases hx : x = sid
                    · subst hx
                      rw [mapSet_self]
                      dsimp only
                      rcases hch3 with ⟨-, (rfl | hin)⟩ | ⟨hne, -⟩
                      · exact Or.inl rfl
                      · have h0 := h2 x ch hin hcne
                        rw [clientPrimary_of_eq hcl,
                          clientMonitoring_of_eq hcl] at h0
                        dsimp only at h0
                        rcases h0 with h0 | h0
                        · injection h0 with h6
                          exact absurd h6.symm hcne
                        · exact Or.inr h0
                      · exact absurd rfl hne
                    · rw [mapSet_other _ _ _ _ hx]
                      rcases hch3 with ⟨hxx, -⟩ | ⟨-, hin⟩
                      · exact absurd hxx hx
                      · exact h2 x ch hin hcne
                  · intro x ch hpc
                    rw [clientPrimary_mk] at hpc
                    by_cases hx : x = sid
                    · subst hx
                      rw [mapSet_self] at hpc
                      dsimp only at hpc
                      rw [mem_rooms_mk, mem_roomsJoin]
                      injection hpc with h6
                      exact Or.inl ⟨rfl, Or.inl h6.symm⟩
                    · rw [mapSet_other _ _ _ _ hx] at hpc
                      have h5 := h3 x ch hpc
                      rw [mem_rooms_mk, mem_roomsJoin]
                      exact Or.inr ⟨hx, h5⟩
                  · intro x hx
                    have hx' : Radio.mapSet s.clients sid
                        ⟨u, some channelId, mon, sts⟩ x = none := hx
                    by_cases hxs : x = sid
                    · subst hxs
                      rw [mapSet_self] at hx'
                      exact Option.noConfusion hx'
                    · rw [mapSet_other _ _ _ _ hxs] at hx'
                      have h5 := h4 x hx'
                      show Radio.roomsJoin s.rooms sid channelId x = []
                      unfold Radio.roomsJoin
                      rw [if_neg hxs]
                      exact h5
                · rw [if_neg hpe]
                  dsimp only
                  refine ⟨?_, ?_, ?_, ?_⟩
                  · intro ch x hcne
                    have hh := h1 ch x hcne
                    rw [memberOf_mk, clientPrimary_mk, memberOfMap_mapSet]
                    by_cases hc : ch = channelId
                    · rw [if_pos hc]
                      subst hc
                      by_cases hx : x = sid
                      · subst hx
                        rw [mapSet_self]
                        dsimp only
                        simp only [decide_eq_true_eq, mem_listInsert]
                        constructor
                        · intro _
                          trivial
                        · intro _
                          exact Or.inl trivial
                      · rw [mapSet_other _ _ _ _ hx]
                        simp only [decide_eq_true_eq, mem_listInsert,
                          mem_ensureSet]
                        rw [memberOfMap_mapSet]
                        by_cases hcp : ch = prev
                        · rw [if_pos hcp, ← hcp]
                          simp only [decide_eq_true_eq, mem_listRemove,
                            mem_ensureSet]
                          constructor
                          · rintro (rfl | ⟨hmem, -⟩)
                            · exact absurd rfl hx
                            · exact hh.mp hmem
                          · intro hpr
                            exact Or.inr ⟨hh.mpr hpr, hx⟩
                        · rw [if_neg hcp, memberOfMap_ensure]
                          constructor
                          · rintro (rfl | hmem)
                            · exact absurd rfl hx
                            · exact hh.mp hmem
                          · intro hpr
                            exact Or.inr (hh.mpr hpr)
                    · rw [if_neg hc, memberOfMap_ensure, memberOfMap_mapSet]
                      by_cases hcp : ch = prev
                      · rw [if_pos hcp, ← hcp]
                        by_cases hx : x = sid
                        · subst hx
                          rw [mapSet_self]
                          dsimp only
                          simp only [decide_eq_true_eq, mem_listRemove]
                          constructor
                          · rintro ⟨-, hne⟩
                            exact absurd rfl hne
                          · intro hpr
                            cases hpr
                            exact absurd rfl hc
                        · rw [mapSet_other _ _ _ _ hx]
                          simp only [decide_eq_true_eq, mem_listRemove,
                            mem_ensureSet]
                          constructor
                          · rintro ⟨hmem, -⟩
                            exact hh.mp hmem
                          · intro hpr
                            exact ⟨hh.mpr hpr, hx⟩
                      · rw [if_neg hcp, memberOfMap_ensure]
                        by_cases hx : x = sid
                        · subst hx
                          rw [mapSet_self]
                          dsimp only
                          constructor
                          · intro hmem
                            have h5 := hh.mp hmem
                            rw [clientPrimary_of_eq hcl] at h5
                            dsimp only at h5
                            injection h5 with h6
                            exact absurd h6.symm hcp
                          · intro hpr
                            cases hpr
                            exact absurd rfl hc
                        · rw [mapSet_other _ _ _ _ hx]
                          exact hh
                  · intro x ch hch2 hcne
                    rw [clientPrimary_mk, clientMonitoring_mk]
                    have hch3 : ch ∈ Radio.roomsJoin
                        (Radio.roomsLeave s.rooms sid prev) sid channelId x :=
                      hch2
                    rw [mem_roomsJoin] at hch3
                    by_cases hx : x = sid
                    · subst hx
                      rw [mapSet_self]
                      dsimp only
                      rcases hch3 with ⟨-, (rfl | hin)⟩ | ⟨hne, -⟩
                      · exact Or.inl rfl
                      · rw [mem_roomsLeave] at hin
                        rcases hin with ⟨-, hin2, hnp⟩ | ⟨hne2, -⟩
                        · have h0 := h2 x ch hin2 hcne
                          rw [clientPrimary_of_eq hcl,
                            clientMonitoring_of_eq hcl] at h0
                          dsimp only at h0
                          rcases h0 with h0 | h0
                          · cases h0
                            exact absurd rfl hnp
                          · exact Or.inr h0
                        · exact absurd rfl hne2
                      · exact absurd rfl hne
                    · rw [mapSet_other _ _ _ _ hx]
                      rcases hch3 with ⟨hxx, -⟩ | ⟨-, hin⟩
                      · exact absurd hxx hx
                      · rw [mem_roomsLeave] at hin
                        rcases hin with ⟨hxx, -⟩ | ⟨-, hin2⟩
                        · exact absurd hxx hx
                        · exact h2 x ch hin2 hcne
                  · intro x ch hpc
                    rw [clientPrimary_mk] at hpc
                    by_cases hx : x = sid
                    · subst hx
                      rw [mapSet_self] at hpc
                      dsimp only at hpc
                      rw [mem_rooms_mk, mem_roomsJoin]
                      injection hpc with h6
                      exact Or.inl ⟨rfl, Or.inl h6.symm⟩
                    · rw [mapSet_other _ _ _ _ hx] at hpc
                      have h5 := h3 x ch hpc
                      rw [mem_rooms_mk, mem_roomsJoin]
                      right
                      refine ⟨hx, ?_⟩
                      rw [mem_roomsLeave]
                      exact Or.inr ⟨hx, h5⟩
                  · intro x hx
                    have hx' : Radio.mapSet s.clients sid
                        ⟨u, some channelId, mon, sts⟩ x = none := hx
                    by_cases hxs : x = sid
                    · subst hxs
                      rw [mapSet_self] at hx'
                      exact Option.noConfusion hx'
                    · rw [mapSet_other _ _ _ _ hxs] at hx'
                      have h5 := h4 x hx'
                      show Radio.roomsJoin (Radio.roomsLeave s.rooms sid prev)
                          sid channelId x = []
                      unfold Radio.roomsJoin Radio.roomsLeave
                      rw [if_neg hxs, if_neg hxs]
                      exact h5

/-- Every reachable state satisfies the invariant. -/
theorem reachable_inv (s : Radio.ServerState) (h : Radio.Reachable s) :
    Radio.Inv s := by
  induction h with
  | init => exact inv_init
  | next e hr ih =>
      cases e with
      | connect sid result => exact inv_connect _ sid result ih
      | join sid channelId => exact inv_join _ sid channelId ih
      | monitor sid channelId => exact inv_monitor _ sid channelId ih
      | unmonitor sid channelId => exact inv_unmonitor _ sid channelId ih
      | pttStart sid now => exact inv_pttStart _ sid now ih
      | pttStop sid =>
          dsimp only [Radio.step]
          rw [pttStop_state]
          exact ih
      | signal sid now chunk => exact inv_signal _ sid now chunk ih
      | getChannels sid =>
          dsimp only [Radio.step]
          rw [getChannels_state]
          exact ih
      | disconnect sid => exact inv_disconnect _ sid ih
      | refresh r => exact inv_channels_irrel _ _ ih

/-- Running a list of events keeps the state reachable. -/
theorem reachable_runEvents (es : List Radio.Event) (s : Radio.ServerState)
    (h : Radio.Reachable s) : Radio.Reachable (Radio.runEvents s es).1 := by
  induction es generalizing s with
  | nil => exact h
  | cons e rest ih => exact ih _ (Radio.Reachable.next e h)

/-- C8 fails on the code: monitors are never added to the Channel
Membership Index.  In the reachable state where staff socket 2 monitors
the mystery channel, the session monitors "mys" yet the index entry for
"mys" does not contain it. -/
theorem C8_counterexample :
    Radio.Reachable Radio.monitorState ∧
    "mys" ∈ Radio.clientMonitoring Radio.monitorState 2 ∧
    Radio.memberOf Radio.monitorState "mys" 2 = false :=
  ⟨reachable_runEvents _ _ (reachable_runEvents _ _ Radio.Reachable.init),
   by decide, by decide⟩

/-- C8 amended: in every reachable state and for every non-empty channel
id, every session in that channel's delivery room has it as its primary or
in its monitoring set, and the Channel Membership Index entry for it holds
exactly the sessions whose primary channel it is — monitors join the
delivery room but are not recorded in the index.  The empty-string id must
be excepted: it is falsy to the `if (state.currentChannel)` guards, so the
leave logic never removes a socket from the empty id's room or index
entry, and stale entries under it persist after a primary switch. -/
theorem C8_amended_delivery_and_index (s : Radio.ServerState)
    (h : Radio.Reachable s) :
    (∀ sid ch, ch ∈ s.rooms sid → ch ≠ "" →
      Radio.clientPrimary s sid = some ch ∨
        ch ∈ Radio.clientMonitoring s sid) ∧
    (∀ ch sid, ch ≠ "" →
      (Radio.memberOf s ch sid = true ↔
        Radio.clientPrimary s sid = some ch)) :=
  ⟨(reachable_inv s h).2.1, (reachable_inv s h).1⟩

/-- Witness for C8 amended: the invariant instantiated in the monitoring
state at the monitoring staff socket and at the civilian primary member. -/
theorem C8_amended_delivery_and_index_witness :
    ("mys" ∈ Radio.monitorState.rooms 2 → ("mys" : Radio.ChannelId) ≠ "" →
      Radio.clientPrimary Radio.monitorState 2 = some "mys" ∨
        "mys" ∈ Radio.clientMonitoring Radio.monitorState 2) ∧
    (Radio.memberOf Radio.monitorState "pub" 1 = true ↔
      Radio.clientPrimary Radio.monitorState 1 = some "pub") :=
  ⟨(C8_amended_delivery_and_index Radio.monitorState
      (reachable_runEvents _ _ (reachable_runEvents _ _
        Radio.Reachable.init))).1 2 "mys",
   (C8_amended_delivery_and_index Radio.monitorState
      (reachable_runEvents _ _ (reachable_runEvents _ _
        Radio.Reachable.init))).2 "pub" 1 (by decide)⟩

/-- C10: for a staff session whose primary channel C is also in its
monitoring set, unmonitorChannel(C) removes C from the monitoring set and
answers with the updated monitoring list, while the session keeps its
registry entry otherwise unchanged, stays in every room it was in —
including C's delivery room, so it keeps receiving roster, ptt_state and
signal events for C — and no membership index entry, channel cache entry
or other session changes. -/
theorem C10_unmonitor_primary_kept (s : Radio.ServerState)
    (sid : Radio.SocketId) (u : Radio.User) (mon : List Radio.ChannelId)
    (sts : Radio.Stats) (C : Radio.ChannelId)
    (hr : Radio.Reachable s)
    (hcl : s.clients sid = some ⟨u, some C, mon, sts⟩)
    (hstaff : Radio.userIsStaff u = true)
    (hmon : C ∈ mon) :
    (Radio.step s (Radio.Event.unmonitor sid C)).1.clients sid =
      some ⟨u, some C, Radio.listRemove C mon, sts⟩ ∧
    (Radio.step s (Radio.Event.unmonitor sid C)).2 =
      [⟨Radio.Target.toSocket sid,
        Radio.Payload.monitoring (Radio.listRemove C mon)⟩] ∧
    (Radio.step s (Radio.Event.unmonitor sid C)).1.rooms = s.rooms ∧
    C ∈ (Radio.step s (Radio.Event.unmonitor sid C)).1.rooms sid ∧
    (Radio.step s (Radio.Event.unmonitor sid C)).1.channelMembers =
      s.channelMembers ∧
    (Radio.step s (Radio.Event.unmonitor sid C)).1.channels = s.channels ∧
    (∀ x, x ≠ sid →
      (Radio.step s (Radio.Event.unmonitor sid C)).1.clients x =
        s.clients x) := by
  have hroom : C ∈ s.rooms sid :=
    (reachable_inv s hr).2.2.1 sid C (by rw [clientPrimary_of_eq hcl])
  dsimp only [Radio.step]
  unfold Radio.handleUnmonitor
  rw [hcl]
  dsimp only
  rw [if_neg (by rw [hstaff]; intro hk; cases hk),
    if_neg (not_not_intro hmon), if_neg (not_not_intro rfl)]
  refine ⟨?_, rfl, rfl, hroom, rfl, rfl, ?_⟩
  · exact mapSet_self _ _ _
  · intro x hx
    exact mapSet_other _ _ _ _ hx

/-- Witness for C10: evaluated in the state where staff socket 2 has the
public channel as primary and also monitors it. -/
theorem C10_unmonitor_primary_kept_witness :
    (Radio.step Radio.staffMonState (Radio.Event.unmonitor 2 "pub")).1.clients 2 =
      some ⟨Radio.staffUser, some "pub",
        Radio.listRemove "pub" ["pub"], ⟨[], []⟩⟩ ∧
    (Radio.step Radio.staffMonState (Radio.Event.unmonitor 2 "pub")).2 =
      [⟨Radio.Target.toSocket 2,
        Radio.Payload.monitoring (Radio.listRemove "pub" ["pub"])⟩] ∧
    (Radio.step Radio.staffMonState (Radio.Event.unmonitor 2 "pub")).1.rooms =
      Radio.staffMonState.rooms ∧
    "pub" ∈ (Radio.step Radio.staffMonState
      (Radio.Event.unmonitor 2 "pub")).1.rooms 2 ∧
    (Radio.step Radio.staffMonState
      (Radio.Event.unmonitor 2 "pub")).1.channelMembers =
      Radio.staffMonState.channelMembers ∧
    (Radio.step Radio.staffMonState (Radio.Event.unmonitor 2 "pub")).1.channels =
      Radio.staffMonState.channels ∧
    (∀ x, x ≠ 2 →
      (Radio.step Radio.staffMonState (Radio.Event.unmonitor 2 "pub")).1.clients x =
        Radio.staffMonState.clients x) :=
  C10_unmonitor_primary_kept Radio.staffMonState 2 Radio.staffUser ["pub"]
    ⟨[], []⟩ "pub"
    (reachable_runEvents _ _ (reachable_runEvents _ _ Radio.Reachable.init))
    rfl rfl (by decide)

/-- C5: in every reachable state a session is in at most one channel's
membership set among real (non-empty) channel ids — at most one primary
channel; a session whose recorded `currentChannel` is the empty string is
falsy to every guard and has no primary channel in the program's sense.
And a successful joinChannel for B by a session whose primary is A first
removes it from A's set and broadcasts A's roster without it, then sends
the join confirmation, then broadcasts B's roster including it, with the
final state giving the session primary B and (for A ≠ B) no membership of
A. -/
theorem C5_single_primary_and_join_order :
    (∀ s, Radio.Reachable s → ∀ sid A B, A ≠ "" → B ≠ "" →
      Radio.memberOf s A sid = true → Radio.memberOf s B sid = true →
      A = B) ∧
    (∀ (s : Radio.ServerState) (sid : Radio.SocketId) (u : Radio.User)
        (mon : List Radio.ChannelId) (sts : Radio.Stats)
        (A B : Radio.ChannelId) (channel : Radio.Channel),
        s.clients sid = some ⟨u, some A, mon, sts⟩ → A ≠ "" →
        Radio.getChannelById s.channels B = some channel →
        Radio.userCanJoinChannel u channel = true →
        ∃ r1 r2,
          (Radio.step s (Radio.Event.join sid B)).2 =
            [⟨Radio.Target.toRoom A, Radio.Payload.channelRoster A r1⟩,
             ⟨Radio.Target.toSocket sid, Radio.Payload.joined B channel.name⟩,
             ⟨Radio.Target.toRoom B, Radio.Payload.channelRoster B r2⟩] ∧
          sid ∉ r1 ∧ sid ∈ r2 ∧
          Radio.clientPrimary (Radio.step s (Radio.Event.join sid B)).1 sid =
            some B ∧
          (A ≠ B →
            Radio.memberOf (Radio.step s (Radio.Event.join sid B)).1 A sid =
              false)) := by
  constructor
  · intro s hr sid A B hAe hBe hA hB
    have h1 := (reachable_inv s hr).1
    have hpA := (h1 A sid hAe).mp hA
    have hpB := (h1 B sid hBe).mp hB
    rw [hpA] at hpB
    injection hpB
  · intro s sid u mon sts A B channel hcl hAe hch hallow
    dsimp only [Radio.step]
    unfold Radio.handleJoin
    rw [hcl]
    dsimp only
    rw [hch]
    dsimp only
    rw [if_neg (by rw [hallow]; intro hk; cases hk)]
    dsimp only
    rw [if_neg hAe]
    dsimp only
    refine ⟨(Radio.listRemove sid
        (Radio.ensureChannelSet s.channelMembers A).2).filter
        (fun m => (s.clients m).isSome),
      (Radio.listInsert sid (Radio.ensureChannelSet
          (Radio.mapSet (Radio.ensureChannelSet s.channelMembers A).1 A
            (Radio.listRemove sid
              (Radio.ensureChannelSet s.channelMembers A).2)) B).2).filter
        (fun m => (Radio.mapSet s.clients sid
          ⟨u, some B, mon, sts⟩ m).isSome),
      ?_, ?_, ?_, ?_, ?_⟩
    · unfold Radio.broadcastRoster
      dsimp only
      rw [mapSet_self, mapSet_self]
      dsimp only
      rfl
    · intro hmem
      have h5 := (List.mem_filter.mp hmem).1
      rw [mem_listRemove] at h5
      exact absurd rfl h5.2
    · rw [List.mem_filter]
      constructor
      · rw [mem_listInsert]
        exact Or.inl rfl
      · rw [mapSet_self]
        rfl
    · rw [clientPrimary_mk, mapSet_self]
    · intro hAB
      rw [memberOf_mk, memberOfMap_mapSet, if_neg hAB, memberOfMap_ensure,
        memberOfMap_mapSet, if_pos rfl]
      simp [mem_listRemove]

/-- Witness for C5: at-most-one-primary evaluated for the civilian in the
base state, and the join ordering evaluated for its switch from the public
channel to the second public channel. -/
theorem C5_single_primary_and_join_order_witness :
    ("pub" : Radio.ChannelId) = "pub" ∧
    (∃ r1 r2,
      (Radio.step Radio.baseState (Radio.Event.join 1 "pub2")).2 =
        [⟨Radio.Target.toRoom "pub", Radio.Payload.channelRoster "pub" r1⟩,
         ⟨Radio.Target.toSocket 1, Radio.Payload.joined "pub2" "Public 2"⟩,
         ⟨Radio.Target.toRoom "pub2", Radio.Payload.channelRoster "pub2" r2⟩] ∧
      (1 : Radio.SocketId) ∉ r1 ∧ (1 : Radio.SocketId) ∈ r2 ∧
      Radio.clientPrimary
          (Radio.step Radio.baseState (Radio.Event.join 1 "pub2")).1 1 =
        some "pub2" ∧
      (("pub" : Radio.ChannelId) ≠ "pub2" →
        Radio.memberOf
            (Radio.step Radio.baseState (Radio.Event.join 1 "pub2")).1
            "pub" 1 = false)) :=
  ⟨C5_single_primary_and_join_order.1 Radio.baseState
      (reachable_runEvents _ _ Radio.Reachable.init) 1 "pub" "pub"
      (by decide) (by decide) (by decide) (by decide),
   C5_single_primary_and_join_order.2 Radio.baseState 1 Radio.civUser []
      ⟨[], []⟩ "pub" "pub2" Radio.pub2Channel rfl (by decide) rfl rfl⟩

/-- A roster computed over a registry that lacks `sid` never lists `sid`
(the source filters roster entries through `clients.get`). -/
theorem roster_no_ghost (cl : Radio.SocketId → Option Radio.ClientState)
    (members : List Radio.SocketId) (sid : Radio.SocketId)
    (hnone : cl sid = none) :
    ¬ sid ∈ members.filter (fun m => (cl m).isSome) := by
  intro hmem
  have h5 := (List.mem_filter.mp hmem).2
  rw [hnone] at h5
  simp at h5

/-- Once a socket is absent from the registry, any event on another
socket leaves it absent and emits nothing that references it. -/
theorem no_ghost_step (s : Radio.ServerState) (sid : Radio.SocketId)
    (hnone : s.clients sid = none) (e : Radio.Event)
    (hact : Radio.eventActor e ≠ some sid) :
    (Radio.step s e).1.clients sid = none ∧
    ∀ em ∈ (Radio.step s e).2, Radio.emitMentions em sid = false := by
  cases e with
  | connect sid2 result =>
      have hne : sid2 ≠ sid := fun h => hact (by subst h; rfl)
      dsimp only [Radio.step]
      unfold Radio.handleConnect
      by_cases hex : (s.clients sid2).isSome = true
      · rw [if_pos hex]
        exact ⟨hnone, by intro em hm; cases hm⟩
      · rw [if_neg hex]
        cases result with
        | none =>
            refine ⟨hnone, ?_⟩
            intro em hm
            rw [List.mem_singleton] at hm
            subst hm
            rfl
        | some user =>
            dsimp only
            refine ⟨?_, ?_⟩
            · show Radio.mapSet s.clients sid2 _ sid = none
              rw [mapSet_other _ _ _ _ (Ne.symm hne)]
              exact hnone
            · intro em hm
              simp only [List.mem_cons, List.not_mem_nil, or_false] at hm
              rcases hm with rfl | rfl
              · rfl
              · rfl
  | join sid2 channelId =>
      have hne : sid2 ≠ sid := fun h => hact (by subst h; rfl)
      dsimp only [Radio.step]
      unfold Radio.handleJoin
      cases hcl : s.clients sid2 with
      | none => exact ⟨hnone, by intro em hm; cases hm⟩
      | some st =>
          obtain ⟨u, cc, mon, sts⟩ := st
          dsimp only
          cases hch : Radio.getChannelById s.channels channelId with
          | none =>
              refine ⟨hnone, ?_⟩
              intro em hm
              rw [List.mem_singleton] at hm
              subst hm
              rfl
          | some channel =>
              dsimp only
              by_cases hallow : Radio.userCanJoinChannel u channel = true
              case neg =>
                have hfalse : Radio.userCanJoinChannel u channel = false := by
                  revert hallow
                  cases Radio.userCanJoinChannel u channel <;> simp
                rw [if_pos (by rw [hfalse]; rfl)]
                refine ⟨hnone, ?_⟩
                intro em hm
                rw [List.mem_singleton] at hm
                subst hm
                rfl
              case pos =>
                rw [if_neg (by rw [hallow]; intro hk; cases hk)]
                cases cc with
                | none =>
                    dsimp only
                    refine ⟨?_, ?_⟩
                    · show Radio.mapSet s.clients sid2 _ sid = none
                      rw [mapSet_other _ _ _ _ (Ne.symm hne)]
                      exact hnone
                    · unfold Radio.broadcastRoster
                      dsimp only
                      rw [mapSet_self]
                      dsimp only
                      intro em hm
                      simp only [List.nil_append, List.mem_cons,
                        List.not_mem_nil, or_false] at hm
                      rcases hm with rfl | rfl
                      · rfl
                      · dsimp only [Radio.emitMentions]
                        refine decide_eq_false ?_
                        refine roster_no_ghost _ _ _ ?_
                        rw [mapSet_other _ _ _ _ (Ne.symm hne)]
                        exact hnone
                | some prev =>
                    dsimp only
                    by_cases hpe : prev = ""
                    · rw [if_pos hpe]
                      dsimp only
                      refine ⟨?_, ?_⟩
                      · show Radio.mapSet s.clients sid2 _ sid = none
                        rw [mapSet_other _ _ _ _ (Ne.symm hne)]
                        exact hnone
                      · unfold Radio.broadcastRoster
                        dsimp only
                        rw [mapSet_self]
                        dsimp only
                        intro em hm
                        simp only [List.nil_append, List.mem_cons,
                          List.not_mem_nil, or_false] at hm
                        rcases hm with rfl | rfl
                        · rfl
                        · dsimp only [Radio.emitMentions]
                          refine decide_eq_false ?_
                          refine roster_no_ghost _ _ _ ?_
                          rw [mapSet_other _ _ _ _ (Ne.symm hne)]
                          exact hnone
                    · rw [if_neg hpe]
                      dsimp only
                      refine ⟨?_, ?_⟩
                      · show Radio.mapSet s.clients sid2 _ sid = none
                        rw [mapSet_other _ _ _ _ (Ne.symm hne)]
                        exact hnone
                      · unfold Radio.broadcastRoster
                        dsimp only
                        rw [mapSet_self, mapSet_self]
                        dsimp only
                        intro em hm
                        simp only [List.cons_append, List.nil_append,
                          List.mem_cons, List.not_mem_nil, or_false] at hm
                        rcases hm with rfl | rfl | rfl
                        · dsimp only [Radio.emitMentions]
                          exact decide_eq_false (roster_no_ghost _ _ _ hnone)
                        · rfl
                        · dsimp only [Radio.emitMentions]
                          refine decide_eq_false ?_
                          refine roster_no_ghost _ _ _ ?_
                          rw [mapSet_other _ _ _ _ (Ne.symm hne)]
                          exact hnone
  | monitor sid2 channelId =>
      have hne : sid2 ≠ sid := fun h => hact (by subst h; rfl)
      dsimp only [Radio.step]
      unfold Radio.handleMonitor
      cases hcl : s.clients sid2 with
      | none => exact ⟨hnone, by intro em hm; cases hm⟩
      | some st =>
          dsimp only
          by_cases hstaff : Radio.userIsStaff st.user = true
          · rw [if_neg (by simp [hstaff])]
            cases hch : Radio.getChannelById s.channels channelId with
            | none => exact ⟨hnone, by intro em hm; cases hm⟩
            | some c =>
                dsimp only
                by_cases hmon : channelId ∈ st.monitoring
                · rw [if_pos hmon]
                  exact ⟨hnone, by intro em hm; cases hm⟩
                · rw [if_neg hmon]
                  dsimp only
                  refine ⟨?_, ?_⟩
                  · show Radio.mapSet s.clients sid2 _ sid = none
                    rw [mapSet_other _ _ _ _ (Ne.symm hne)]
                    exact hnone
                  · intro em hm
                    rw [List.mem_singleton] at hm
                    subst hm
                    rfl
          · have hfalse : Radio.userIsStaff st.user = false := by
              revert hstaff
              cases Radio.userIsStaff st.user <;> simp
            rw [if_pos (by rw [hfalse]; rfl)]
            refine ⟨hnone, ?_⟩
            intro em hm
            rw [List.mem_singleton] at hm
            subst hm
            rfl
  | unmonitor sid2 channelId =>
      have hne : sid2 ≠ sid := fun h => hact (by subst h; rfl)
      dsimp only [Radio.step]
      unfold Radio.handleUnmonitor
      cases hcl : s.clients sid2 with
      | none => exact ⟨hnone, by intro em hm; cases hm⟩
      | some st =>
          dsimp only
          by_cases hstaff : Radio.userIsStaff st.user = true
          · rw [if_neg (by simp [hstaff])]
            by_cases hmon : channelId ∈ st.monitoring
            · rw [if_neg (not_not_intro hmon)]
              dsimp only
              refine ⟨?_, ?_⟩
              · show Radio.mapSet s.clients sid2 _ sid = none
                rw [mapSet_other _ _ _ _ (Ne.symm hne)]
                exact hnone
              · intro em hm
                rw [List.mem_singleton] at hm
                subst hm
                rfl
            · rw [if_pos hmon]
              exact ⟨hnone, by intro em hm; cases hm⟩
          · have hfalse : Radio.userIsStaff st.user = false := by
              revert hstaff
              cases Radio.userIsStaff st.user <;> simp
            rw [if_pos (by rw [hfalse]; rfl)]
            exact ⟨hnone, by intro em hm; cases hm⟩
  | pttStart sid2 now =>
      have hne : sid2 ≠ sid := fun h => hact (by subst h; rfl)
      dsimp only [Radio.step]
      unfold Radio.handlePttStart
      cases hcl : s.clients sid2 with
      | none => exact ⟨hnone, by intro em hm; cases hm⟩
      | some st =>
          obtain ⟨u, cc, mon, sts⟩ := st
          cases cc with
          | none => exact ⟨hnone, by intro em hm; cases hm⟩
          | some ch =>
              dsimp only
              by_cases hce : ch = ""
              · rw [if_pos hce]
                exact ⟨hnone, by intro em hm; cases hm⟩
              · rw [if_neg hce]
                by_cases hlim :
                    (sts.pttStarts.filter (fun t => now - t < 10000)).length ≥
                      Radio.MAX_PTT_STARTS_PER_10S
                · rw [if_pos hlim]
                  refine ⟨?_, ?_⟩
                  · show Radio.mapSet s.clients sid2 _ sid = none
                    rw [mapSet_other _ _ _ _ (Ne.symm hne)]
                    exact hnone
                  · intro em hm
                    rw [List.mem_singleton] at hm
                    subst hm
                    rfl
                · rw [if_neg hlim]
                  refine ⟨?_, ?_⟩
                  · show Radio.mapSet s.clients sid2 _ sid = none
                    rw [mapSet_other _ _ _ _ (Ne.symm hne)]
                    exact hnone
                  · intro em hm
                    rw [List.mem_singleton] at hm
                    subst hm
                    dsimp only [Radio.emitMentions]
                    exact beq_eq_false_iff_ne.mpr hne
  | pttStop sid2 =>
      have hne : sid2 ≠ sid := fun h => hact (by subst h; rfl)
      dsimp only [Radio.step]
      unfold Radio.handlePttStop
      cases hcl : s.clients sid2 with
      | none => exact ⟨hnone, by intro em hm; cases hm⟩
      | some st =>
          obtain ⟨u, cc, mon, sts⟩ := st
          cases cc with
          | none => exact ⟨hnone, by intro em hm; cases hm⟩
          | some ch =>
              dsimp only
              by_cases hce : ch = ""
              · rw [if_pos hce]
                exact ⟨hnone, by intro em hm; cases hm⟩
              · rw [if_neg hce]
                refine ⟨hnone, ?_⟩
                intro em hm
                rw [List.mem_singleton] at hm
                subst hm
                dsimp only [Radio.emitMentions]
                exact beq_eq_false_iff_ne.mpr hne
  | signal sid2 now chunk =>
      have hne : sid2 ≠ sid := fun h => hact (by subst h; rfl)
      dsimp only [Radio.step]
      unfold Radio.handleSignal
      cases hcl : s.clients sid2 with
      | none => exact ⟨hnone, by intro em hm; cases hm⟩
      | some st =>
          obtain ⟨u, cc, mon, sts⟩ := st
          cases cc with
          | none => exact ⟨hnone, by intro em hm; cases hm⟩
          | some ch =>
              dsimp only
              by_cases hce : ch = ""
              · rw [if_pos hce]
                exact ⟨hnone, by intro em hm; cases hm⟩
              · rw [if_neg hce]
                by_cases hcap : Radio.bucketCount
                    ((Radio.bumpBucket sts.chunksPerSecond (now / 1000)).filter
                      (fun p => !(p.1 < now / 1000 - 5))) (now / 1000) >
                    Radio.MAX_CHUNKS_PER_SECOND
                · rw [if_pos hcap]
                  refine ⟨?_, ?_⟩
                  · show Radio.mapSet s.clients sid2 _ sid = none
                    rw [mapSet_other _ _ _ _ (Ne.symm hne)]
                    exact hnone
                  · intro em hm
                    cases hm
                · rw [if_neg hcap]
                  refine ⟨?_, ?_⟩
                  · show Radio.mapSet s.clients sid2 _ sid = none
                    rw [mapSet_other _ _ _ _ (Ne.symm hne)]
                    exact hnone
                  · intro em hm
                    rw [List.mem_singleton] at hm
                    subst hm
                    dsimp only [Radio.emitMentions]
                    exact beq_eq_false_iff_ne.mpr hne
  | getChannels sid2 =>
      dsimp only [Radio.step]
      unfold Radio.handleGetChannels
      cases hcl : s.clients sid2 with
      | none => exact ⟨hnone, by intro em hm; cases hm⟩
      | some st =>
          refine ⟨hnone, ?_⟩
          intro em hm
          rw [List.mem_singleton] at hm
          subst hm
          rfl
  | disconnect sid2 =>
      have hne : sid2 ≠ sid := fun h => hact (by subst h; rfl)
      dsimp only [Radio.step]
      unfold Radio.handleDisconnect
      dsimp only
      cases hcl : s.clients sid2 with
      | none => exact ⟨hnone, by intro em hm; cases hm⟩
      | some st =>
          obtain ⟨u, cc, mon, sts⟩ := st
          cases cc with
          | none =>
              dsimp only
              refine ⟨?_, ?_⟩
              · show Radio.mapDel s.clients sid2 sid = none
                rw [mapDel_other _ _ _ (Ne.symm hne)]
                exact hnone
              · intro em hm
                cases hm
          | some ch0 =>
              dsimp only
              by_cases hce : ch0 = ""
              · rw [if_pos hce]
                refine ⟨?_, ?_⟩
                · show Radio.mapDel s.clients sid2 sid = none
                  rw [mapDel_other _ _ _ (Ne.symm hne)]
                  exact hnone
                · intro em hm
                  cases hm
              · rw [if_neg hce]
                unfold Radio.broadcastRoster
                dsimp only
                rw [mapSet_self]
                dsimp only
                refine ⟨?_, ?_⟩
                · show Radio.mapDel s.clients sid2 sid = none
                  rw [mapDel_other _ _ _ (Ne.symm hne)]
                  exact hnone
                · intro em hm
                  rw [List.mem_singleton] at hm
                  subst hm
                  dsimp only [Radio.emitMentions]
                  exact decide_eq_false (roster_no_ghost _ _ _ hnone)
  | refresh r =>
      exact ⟨hnone, by intro em hm; cases hm⟩

/-- C6 fails on the code: a disconnecting session is not removed from
every membership set it belongs to.  The `if (state.currentChannel)`
guards are JS truthiness, so after joining the empty-id channel and then
switching primary to the public channel, the session is still in the empty
id's member set; disconnecting removes it from the public set and deletes
the registry entry, but the empty-id membership survives the disconnect. -/
theorem C6_counterexample :
    Radio.Reachable Radio.ghostState ∧
    Radio.memberOf Radio.ghostState "" 1 = true ∧
    (Radio.step Radio.ghostState (Radio.Event.disconnect 1)).1.clients 1 =
      none ∧
    Radio.memberOf (Radio.step Radio.ghostState (Radio.Event.disconnect 1)).1
      "" 1 = true :=
  ⟨reachable_runEvents _ _ (reachable_runEvents _ _ (reachable_runEvents _ _
      Radio.Reachable.init)),
   by decide, by decide, by decide⟩

/-- C6 amended: disconnecting a session whose primary channel X has a real
(non-empty) id removes it from X's membership set — and it is a member of
no other non-empty-id set — broadcasts to X's room a final roster that
excludes it, deletes its registry entry and empties its room set, though a
stale empty-id membership from an earlier primary survives.  A session
whose recorded primary is the empty string is falsy to the guard: only the
registry entry is deleted, no member set is touched and no roster is sent.
Once a session is gone from the registry, any further event on another
socket leaves it gone and emits no roster, ptt_state or signal payload
referencing it. -/
theorem C6_amended_disconnect_cleanup :
    (∀ (s : Radio.ServerState) (sid : Radio.SocketId) (u : Radio.User)
        (mon : List Radio.ChannelId) (sts : Radio.Stats)
        (X : Radio.ChannelId),
        Radio.Reachable s →
        s.clients sid = some ⟨u, some X, mon, sts⟩ → X ≠ "" →
        ∃ r, (Radio.step s (Radio.Event.disconnect sid)).2 =
            [⟨Radio.Target.toRoom X, Radio.Payload.channelRoster X r⟩] ∧
          sid ∉ r ∧
          (Radio.step s (Radio.Event.disconnect sid)).1.clients sid = none ∧
          (∀ ch, ch ≠ "" → Radio.memberOf
            (Radio.step s (Radio.Event.disconnect sid)).1 ch sid = false) ∧
          (Radio.step s (Radio.Event.disconnect sid)).1.rooms sid = []) ∧
    (∀ (s : Radio.ServerState) (sid : Radio.SocketId) (u : Radio.User)
        (mon : List Radio.ChannelId) (sts : Radio.Stats),
        s.clients sid = some ⟨u, some "", mon, sts⟩ →
        (Radio.step s (Radio.Event.disconnect sid)).2 = [] ∧
        (Radio.step s (Radio.Event.disconnect sid)).1.clients sid = none ∧
        (Radio.step s (Radio.Event.disconnect sid)).1.channelMembers =
          s.channelMembers ∧
        (Radio.step s (Radio.Event.disconnect sid)).1.rooms sid = []) ∧
    (∀ (s : Radio.ServerState) (sid : Radio.SocketId),
        s.clients sid = none → ∀ e, Radio.eventActor e ≠ some sid →
        (Radio.step s e).1.clients sid = none ∧
        ∀ em ∈ (Radio.step s e).2, Radio.emitMentions em sid = false) := by
  refine ⟨?_, ?_, ?_⟩
  · intro s sid u mon sts X hr hcl hXe
    have h1 := (reachable_inv s hr).1
    dsimp only [Radio.step]
    unfold Radio.handleDisconnect
    dsimp only
    rw [hcl]
    dsimp only
    rw [if_neg hXe]
    unfold Radio.broadcastRoster
    dsimp only
    rw [mapSet_self]
    dsimp only
    refine ⟨_, rfl, ?_, ?_, ?_, ?_⟩
    · intro hmem
      have h5 := (List.mem_filter.mp hmem).1
      rw [mem_listRemove] at h5
      exact absurd rfl h5.2
    · exact mapDel_self _ _
    · intro ch hcne
      rw [memberOf_mk, memberOfMap_mapSet]
      by_cases hc : ch = X
      · rw [if_pos hc]
        simp [mem_listRemove]
      · rw [if_neg hc, memberOfMap_ensure]
        cases hb : Radio.memberOfMap s.channelMembers ch sid with
        | false => rfl
        | true =>
            have h5 := (h1 ch sid hcne).mp hb
            rw [clientPrimary_of_eq hcl] at h5
            dsimp only at h5
            injection h5 with h6
            exact absurd h6.symm hc
    · show Radio.roomsClear s.rooms sid sid = []
      unfold Radio.roomsClear
      simp
  · intro s sid u mon sts hcl
    dsimp only [Radio.step]
    unfold Radio.handleDisconnect
    dsimp only
    rw [hcl]
    dsimp only
    rw [if_pos rfl]
    refine ⟨rfl, ?_, rfl, ?_⟩
    · exact mapDel_self _ _
    · show Radio.roomsClear s.rooms sid sid = []
      unfold Radio.roomsClear
      simp
  · intro s sid hnone e hact
    exact no_ghost_step s sid hnone e hact

/-- Witness for C6 amended: the disconnect of the civilian session in the
state where staff also monitors the public channel; the registry-only
disconnect of a session whose primary is the empty-id channel; and a
getChannels event after a socket is gone from the registry. -/
theorem C6_amended_disconnect_cleanup_witness :
    (∃ r, (Radio.step Radio.staffMonState (Radio.Event.disconnect 1)).2 =
        [⟨Radio.Target.toRoom "pub", Radio.Payload.channelRoster "pub" r⟩] ∧
      (1 : Radio.SocketId) ∉ r ∧
      (Radio.step Radio.staffMonState
        (Radio.Event.disconnect 1)).1.clients 1 = none ∧
      (∀ ch, ch ≠ "" → Radio.memberOf
        (Radio.step Radio.staffMonState (Radio.Event.disconnect 1)).1
          ch 1 = false) ∧
      (Radio.step Radio.staffMonState
        (Radio.Event.disconnect 1)).1.rooms 1 = []) ∧
    ((Radio.step Radio.emptyPrimState (Radio.Event.disconnect 1)).2 = [] ∧
      (Radio.step Radio.emptyPrimState
        (Radio.Event.disconnect 1)).1.clients 1 = none ∧
      (Radio.step Radio.emptyPrimState
        (Radio.Event.disconnect 1)).1.channelMembers =
        Radio.emptyPrimState.channelMembers ∧
      (Radio.step Radio.emptyPrimState
        (Radio.Event.disconnect 1)).1.rooms 1 = []) ∧
    ((Radio.step Radio.initState (Radio.Event.getChannels 2)).1.clients 1 =
        none ∧
      ∀ em ∈ (Radio.step Radio.initState (Radio.Event.getChannels 2)).2,
        Radio.emitMentions em 1 = false) :=
  ⟨C6_amended_disconnect_cleanup.1 Radio.staffMonState 1 Radio.civUser []
      ⟨[], []⟩ "pub"
      (reachable_runEvents _ _ (reachable_runEvents _ _
        Radio.Reachable.init)) rfl (by decide),
   C6_amended_disconnect_cleanup.2.1 Radio.emptyPrimState 1 Radio.civUser []
      ⟨[], []⟩ rfl,
   C6_amended_disconnect_cleanup.2.2 Radio.initState 1 rfl
      (Radio.Event.getChannels 2) (by decide)⟩
